import Mathlib

/-!
Verification development for the notion-caldav-sync repository.

The embedding follows `src/app/engine.py`, `src/app/webhook.py` and
`src/app/notion.py`.  The modules `constants.py`, `task.py`, `ics.py` and
`calendar.py` are imported by the engine but are not part of the source
tree; where their behaviour is needed it is modelled from the spec
(each such definition says so in its doc comment).  Machine-level I/O is
embedded as explicit action traces; datetimes are epoch seconds (Int).
-/

namespace NotionCaldav

/-- Python truthiness of an optional string (`None` and `""` are falsy). -/
def truthyStr : Option String → Bool
  | none => false
  | some s => !s.isEmpty

/-- First-match association list lookup, the read semantics of a Python
dict whose most recent insertion is consed at the front. -/
def alookup (l : List (String × String)) (k : String) : Option String :=
  match l with
  | [] => none
  | (k', v) :: rest => if k' = k then some v else alookup rest k

/-- Dict insertion modelled as a cons; `alookup` sees the newest binding. -/
def ainsert (l : List (String × String)) (k v : String) : List (String × String) :=
  (k, v) :: l

/-- Membership in a Python set of strings. -/
def smem (s : List String) (x : String) : Bool := s.contains x

/-- `set.add`: extend the membership list (duplicates are harmless since
only membership is ever observed). -/
def sadd (s : List String) (x : String) : List String := x :: s

/-- Python `str.strip()` (default whitespace), spelled out on the
character list so that it evaluates by kernel reduction. -/
def pyStrip (s : String) : String :=
  String.mk (((s.toList.dropWhile Char.isWhitespace).reverse.dropWhile
    Char.isWhitespace).reverse)

/-- Python `str.lower()` on the ASCII range (the only case the code
compares), spelled out on the character list so that it evaluates by
kernel reduction. -/
def pyLower (s : String) : String :=
  String.mk (s.toList.map Char.toLower)

/-- Days since 1970-01-01 of a proleptic Gregorian civil date
(Hinnant's days-from-civil algorithm, specialised to the nonnegative
years produced by a four-digit ISO year so that every division below has
a nonnegative numerator). -/
def daysFromCivil (y m d : Int) : Int :=
  let y2 : Int := if m ≤ 2 then y - 1 else y
  let era : Int := y2.ediv 400
  let yoe : Int := y2.emod 400
  let mp : Int := (m + 9).emod 12
  let doy : Int := (153 * mp + 2).ediv 5 + d - 1
  let doe : Int := yoe * 365 + yoe.ediv 4 - yoe.ediv 100 + doy
  era * 146097 + doe - 719468

/-- Leap year test of the Gregorian calendar. -/
def isLeapYear (y : Nat) : Bool :=
  (y % 4 = 0 && y % 100 ≠ 0) || y % 400 = 0

/-- Number of days in a month, used to validate parsed dates the way the
datetime library does. -/
def daysInMonth (y m : Nat) : Nat :=
  if m = 2 then (if isLeapYear y then 29 else 28)
  else if m = 4 || m = 6 || m = 9 || m = 11 then 30
  else 31

/-- Read exactly `n` decimal digits, returning their value and the rest. -/
def readNDigits : Nat → Nat → List Char → Option (Nat × List Char)
  | 0, acc, cs => some (acc, cs)
  | n + 1, acc, c :: cs =>
      if c.isDigit then readNDigits n (acc * 10 + (c.toNat - 48)) cs else none
  | _ + 1, _, [] => none

/-- Skip a fractional-seconds component (`.` or `,` followed by at least
one digit); the digits are dropped, so the model works at whole-second
granularity. -/
def skipFraction : List Char → Option (List Char)
  | [] => some []
  | c :: cs =>
      if c = '.' || c = ',' then
        match cs.dropWhile Char.isDigit, cs.takeWhile Char.isDigit with
        | rest, d :: _ =>
            if d.isDigit then some rest else none
        | _, [] => none
      else some (c :: cs)

/-- Parse a UTC-offset suffix: empty (naive), `Z`, or `±HH[[:]MM]` with
the offset in seconds.  Returns `none` on malformed input, `some none`
for a naive stamp and `some (some off)` for an aware one. -/
def parseOffset : List Char → Option (Option Int)
  | [] => some none
  | ['Z'] => some (some 0)
  | c :: cs =>
      if c = '+' || c = '-' then
        match readNDigits 2 0 cs with
        | none => none
        | some (hh, rest) =>
            let sign : Int := if c = '-' then -1 else 1
            let mk := fun (mm : Nat) =>
              if hh < 24 && mm < 60 then
                some (some (sign * (hh * 3600 + mm * 60)))
              else none
            match rest with
            | [] => mk 0
            | ':' :: rest2 =>
                match readNDigits 2 0 rest2 with
                | some (mm, []) => mk mm
                | _ => none
            | _ =>
                match readNDigits 2 0 rest with
                | some (mm, []) => mk mm
                | _ => none
      else none

/-- Parse `HH[:MM[:SS[.ffffff]]]`, returning seconds-in-day and the rest
(the offset suffix). -/
def parseTimePart (cs : List Char) : Option (Nat × List Char) :=
  match readNDigits 2 0 cs with
  | none => none
  | some (h, rest) =>
      if h ≥ 24 then none
      else
        match rest with
        | ':' :: rest2 =>
            match readNDigits 2 0 rest2 with
            | none => none
            | some (mi, rest3) =>
                if mi ≥ 60 then none
                else
                  match rest3 with
                  | ':' :: rest4 =>
                      match readNDigits 2 0 rest4 with
                      | none => none
                      | some (se, rest5) =>
                          if se ≥ 60 then none
                          else
                            match skipFraction rest5 with
                            | none => none
                            | some rest6 => some (h * 3600 + mi * 60 + se, rest6)
                  | _ => some (h * 3600 + mi * 60, rest3)
        | _ => some (h * 3600, rest)

/-- Core ISO-8601 parser shared by the models of `dateutil.parser.isoparse`
and `datetime.fromisoformat` on the forms this program produces and
consumes: `YYYY-MM-DD`, optionally followed by `T` and `HH[:MM[:SS[.f]]]`
with an optional `Z`/`±HH[:MM]` offset.  Partial dates, week dates and
separator-free time forms accepted by the libraries are out of model.
Returns the timestamp in epoch seconds (a naive stamp is read as if UTC)
and whether the stamp was timezone-aware. -/
def parseIsoCore (s : String) : Option (Int × Bool) :=
  match readNDigits 4 0 s.toList with
  | none => none
  | some (y, rest) =>
      match rest with
      | '-' :: rest2 =>
          match readNDigits 2 0 rest2 with
          | none => none
          | some (mo, rest3) =>
              match rest3 with
              | '-' :: rest4 =>
                  match readNDigits 2 0 rest4 with
                  | none => none
                  | some (d, rest5) =>
                      if mo < 1 || mo > 12 || d < 1 || d > daysInMonth y mo then none
                      else
                        let base : Int := 86400 * daysFromCivil y mo d
                        match rest5 with
                        | [] => some (base, false)
                        | 'T' :: rest6 =>
                            match parseTimePart rest6 with
                            | none => none
                            | some (secs, rest7) =>
                                match parseOffset rest7 with
                                | none => none
                                | some none => some (base + secs, false)
                                | some (some off) => some (base + secs - off, true)
                        | _ => none
              | _ => none
      | _ => none

/-- The canonical task record (`task.py` is absent from the tree).
Modelled from the spec: §3's Task entity, with the field names used by
`engine.py` and `notion.py`; optional fields are `Option String` so that
Python's `None`-vs-`""` truthiness can be expressed. -/
structure TaskInfo where
  notion_id : Option String := none
  title : Option String := none
  status : Option String := none
  start_date : Option String := none
  end_date : Option String := none
  reminder : Option String := none
  category : Option String := none
  description : Option String := none
  database_name : Option String := none
  url : Option String := none
deriving Repr, DecidableEq

/-- Modelled from the spec: `constants.normalize_status_name` (the file
is absent).  Case- and punctuation-insensitive matching onto the closed
canonical set; `Overdue` is derived, never stored upstream, so it is not
a target; unmapped input is dropped. -/
def normalize_status_name (status : Option String) : Option String :=
  match status with
  | none => none
  | some s =>
      let key := String.mk (((pyLower s).toList).filter Char.isAlphanum)
      if key = "todo" then some "Todo"
      else if key = "inprogress" then some "In progress"
      else if key = "completed" then some "Completed"
      else if key = "cancelled" then some "Cancelled"
      else none

/-- `engine._FINAL_STATUSES`. -/
def FINAL_STATUSES : List String := ["Completed", "Cancelled"]

/-- `engine._is_all_day_value`: a non-empty stripped string with no `T`
(the containment test is on the character list so it evaluates by
kernel reduction). -/
def is_all_day_value : Option String → Bool
  | none => false
  | some s =>
      let normalized := pyStrip s
      if normalized.isEmpty then false else !normalized.toList.contains 'T'

/-- `engine._parse_iso_datetime`: parse via the ISO core; on a date-only
value with the end-of-day flag set, move to 23:59:59; a naive stamp is
treated as UTC (identity in the epoch-seconds model); unparseable input
yields `none` (the `ValueError`/`TypeError` catch). -/
def parse_iso_datetime (value : Option String) (endOfDayIfDateOnly : Bool) :
    Option Int :=
  match value with
  | none => none
  | some s =>
      if s.isEmpty then none
      else
        match parseIsoCore s with
        | none => none
        | some (t, _) =>
            if endOfDayIfDateOnly && !s.toList.contains 'T' then some (t + 86399)
            else some t

/-- `engine.py` line 189: `due_source = task.end_date or task.start_date`. -/
def dueSourceOf (task : TaskInfo) : Option String :=
  if truthyStr task.end_date then task.end_date else task.start_date

/-- `engine.py` lines 190-192: the all-day flag passed to the parser. -/
def allDayDueOf (task : TaskInfo) : Bool :=
  is_all_day_value task.end_date ||
    (!truthyStr task.end_date && is_all_day_value task.start_date)

/-- `engine._is_task_overdue`, with the current UTC time passed
explicitly as epoch seconds. -/
def is_task_overdue (task : TaskInfo) (now : Int) : Bool :=
  if !truthyStr task.start_date && !truthyStr task.end_date then false
  else if (match normalize_status_name task.status with
           | some s => FINAL_STATUSES.contains s
           | none => false) then false
  else
    match parse_iso_datetime (dueSourceOf task) (allDayDueOf task) with
    | none => false
    | some due => decide (due < now)

/-- `engine._status_for_task`: the derived display status. -/
def status_for_task (task : TaskInfo) (now : Int) : String :=
  let normalized := (normalize_status_name task.status).getD "Todo"
  if is_task_overdue task now then "Overdue" else normalized

/-- Python `str()` of an optional id as used in an f-string
(`None` prints as `"None"`). -/
def optPyStr : Option String → String
  | none => "None"
  | some s => s

/-- Modelled from the spec: `constants.status_to_emoji` (the file is
absent); §4.1 maps each canonical status to a presentational glyph.
The glyph strings are placeholders — no claim depends on their values,
only on the mapping being a function of the status. -/
def status_to_emoji : String → Option String
  | "Todo" => some "[ ]"
  | "In progress" => some "[~]"
  | "Completed" => some "[x]"
  | "Cancelled" => some "[-]"
  | "Overdue" => some "[!]"
  | _ => none

/-- `engine._description_for_task` (engine.py lines 143-149): the
`Source:` line, an optional `Category:` line, and an optional blank
line plus the free-text description, newline-joined. -/
def description_for_task (task : TaskInfo) : String :=
  let base := "Source: "
    ++ (if truthyStr task.database_name then task.database_name.getD "" else "-")
  let withCat :=
    if truthyStr task.category then base ++ "\n" ++ "Category: " ++ task.category.getD ""
    else base
  if truthyStr task.description then withCat ++ "\n" ++ "\n" ++ task.description.getD ""
  else withCat

/-- Modelled from the spec: `ics.build_event` (the file is absent);
§4.1 serializes identifier, title, glyph+status, start/end, reminder,
description, category, color and URL into the calendar payload.  The
exact field layout is a placeholder; every claim depends only on the
payload being a deterministic function of these inputs in which the
serialized status line appears. -/
def build_event (uid title emoji status : String)
    (start endd reminder : Option String) (description : String)
    (category : Option String) (color url : String) : String :=
  "BEGIN:VEVENT" ++ "\n"
    ++ "UID:" ++ uid ++ "\n"
    ++ "SUMMARY:" ++ emoji ++ " " ++ title ++ "\n"
    ++ "STATUS:" ++ status ++ "\n"
    ++ "DTSTART:" ++ start.getD "" ++ "\n"
    ++ "DTEND:" ++ endd.getD "" ++ "\n"
    ++ "REMINDER:" ++ reminder.getD "" ++ "\n"
    ++ "DESCRIPTION:" ++ description ++ "\n"
    ++ "CATEGORY:" ++ category.getD "" ++ "\n"
    ++ "COLOR:" ++ color ++ "\n"
    ++ "URL:" ++ url ++ "\n"
    ++ "END:VEVENT"

/-- `engine._build_ics_for_task` (engine.py lines 156-171), with the
current UTC time passed explicitly: the derived display status (which
reads the clock through `_is_task_overdue`) and its glyph (falling back
to the `Todo` glyph), serialized together with the task fields and the
calendar color; the URL falls back to a constructed link from the
dash-stripped id (the loop only calls this with a truthy id). -/
def build_ics_for_task (now : Int) (task : TaskInfo) (calendar_color : String) :
    String :=
  let normalized_status := status_for_task task now
  let emoji :=
    match status_to_emoji normalized_status with
    | some e => if e.isEmpty then (status_to_emoji "Todo").getD "" else e
    | none => (status_to_emoji "Todo").getD ""
  build_event (optPyStr task.notion_id)
    (if truthyStr task.title then task.title.getD "" else "")
    emoji normalized_status task.start_date task.end_date task.reminder
    (description_for_task task) task.category calendar_color
    (if truthyStr task.url then task.url.getD ""
     else "https://www.notion.so/"
        ++ String.mk ((task.notion_id.getD "").toList.filter (· ≠ '-')))

/-- The engine's renderer at UTC time `now`: what stands in for the
`render` parameter of the sync loop in the running program.  It is a
function of the clock because the status derivation is. -/
def renderAt (now : Int) (calendarColor : String) : TaskInfo → String :=
  fun task => build_ics_for_task now task calendarColor

/-- Modelled from the spec: `constants.DEFAULT_FULL_SYNC_MINUTES` (the
file is absent); the spec fixes only that the default interval is a
positive integer number of minutes. -/
def DEFAULT_FULL_SYNC_MINUTES : Int := 360

/-- The two settings fields read by the scheduling gate. -/
structure GateSettings where
  last_full_sync : Option String := none
  full_sync_interval_minutes : Option Int := none
deriving Repr, DecidableEq

/-- `engine.full_sync_due`.  `datetime.fromisoformat` is modelled by
`parseIsoCore`; only `ValueError` is caught in the source, so a value
that parses to a timezone-naive datetime makes the aware-minus-naive
subtraction raise `TypeError`, embedded as `Except.error`. -/
def full_sync_due (settings : GateSettings) (now : Int) : Except String Bool :=
  let minutes := settings.full_sync_interval_minutes.getD DEFAULT_FULL_SYNC_MINUTES
  match settings.last_full_sync with
  | none => .ok true
  | some last =>
      if last.isEmpty then .ok true
      else
        match parseIsoCore last with
        | none => .ok true
        | some (t, aware) =>
            if aware then .ok (decide (now - t ≥ minutes * 60))
            else .error "TypeError: cannot subtract offset-naive and offset-aware datetimes"

/-- `engine._event_url`: `calendar_href.rstrip("/") + f"/{id}.ics"`
(the trailing-slash strip is spelled out on the character list). -/
def event_url (calendarHref notionId : String) : String :=
  String.mk ((calendarHref.toList.reverse.dropWhile (· = '/')).reverse)
    ++ "/" ++ notionId ++ ".ics"

/-- One effect of a full-sync run, in program order: a calendar write at
an event URL, a calendar delete, or the single end-of-run settings
persistence (`update_settings(last_full_sync=…, event_hashes=…)`).
The task id of a put is recorded alongside the URL so the remote event
set can be described. -/
inductive CalAction where
  | put (tid url ics : String)
  | del (tid url : String)
  | persist (lastFullSync : String) (eventHashes : List (String × String))
deriving Repr, DecidableEq

/-- Whether an action is the settings persistence. -/
def CalAction.isPersist : CalAction → Bool
  | .persist _ _ => true
  | _ => false

/-- Ids of the put actions in a trace. -/
def putIds (actions : List CalAction) : List String :=
  actions.filterMap fun a =>
    match a with
    | .put tid _ _ => some tid
    | _ => none

/-- Mutable state of the per-task loop of `run_full_sync`
(lines 282-303): the live remote-id set, the should-exist list, the new
hash ledger, the skip counter, and the calendar actions issued so far. -/
structure SyncState where
  existing : List String
  updatedIds : List String
  updatedHashes : List (String × String)
  skips : Nat
  actions : List CalAction
deriving Repr, DecidableEq

/-- A task enters the diff loop only with a truthy start date and id
(lines 287-290). -/
def qualifies (task : TaskInfo) : Bool :=
  truthyStr task.start_date && truthyStr task.notion_id

/-- The id under which a qualifying task is processed. -/
def taskId (task : TaskInfo) : String := (task.notion_id).getD ""

/-- One iteration of the diff loop of `run_full_sync` (lines 286-303).
`render` stands for `_build_ics_for_task · calendar_color` and `hashFn`
for `_hash_ics_payload` (SHA-256 is not modelled; the loop only compares
hashes for equality). -/
def fullSyncStep (render : TaskInfo → String) (hashFn : String → String)
    (storedHashes : List (String × String)) (href : String)
    (st : SyncState) (task : TaskInfo) : SyncState :=
  if !truthyStr task.start_date then st
  else if !truthyStr task.notion_id then st
  else
    let tid := taskId task
    let ics := render task
    let payloadHash := hashFn ics
    let previousHash := alookup storedHashes tid
    let existsRemotely := smem st.existing tid
    if previousHash ≠ some payloadHash ∨ ¬existsRemotely then
      { st with
        existing := sadd st.existing tid
        updatedIds := st.updatedIds ++ [tid]
        updatedHashes := ainsert st.updatedHashes tid payloadHash
        actions := st.actions ++ [.put tid (event_url href tid) ics] }
    else
      { st with
        updatedIds := st.updatedIds ++ [tid]
        updatedHashes := ainsert st.updatedHashes tid payloadHash
        skips := st.skips + 1 }

/-- The whole diff loop, folded over the fetched tasks in order.
`existingIds` is the id set listed from the calendar before the loop
(lines 276-280). -/
def runFullSyncLoop (render : TaskInfo → String) (hashFn : String → String)
    (storedHashes : List (String × String)) (href : String)
    (existingIds : List String) (tasks : List TaskInfo) : SyncState :=
  tasks.foldl (fullSyncStep render hashFn storedHashes href)
    { existing := existingIds, updatedIds := [], updatedHashes := [],
      skips := 0, actions := [] }

/-- Modelled from the spec: `calendar.remove_missing_events`
(`calendar.py` is absent).  §4.2 step 5 / §4.4: every prefetched remote
event whose id is not in the should-exist set is deleted. -/
def cleanupDeletes (existingEvents : List String) (keepIds : List String) :
    List String :=
  existingEvents.filter (fun e => !keepIds.contains e)

/-- The full action trace of `run_full_sync` after the calendar metadata
is established, in program order: the loop's puts, then the cleanup
deletes, then the single settings persistence of the new timestamp and
ledger (lines 304-316). -/
def runFullSyncTrace (render : TaskInfo → String) (hashFn : String → String)
    (storedHashes : List (String × String)) (href : String)
    (existingIds : List String) (tasks : List TaskInfo) (nowIso : String) :
    List CalAction :=
  let st := runFullSyncLoop render hashFn storedHashes href existingIds tasks
  st.actions
    ++ (cleanupDeletes existingIds st.updatedIds).map
        (fun e => .del e (event_url href e))
    ++ [.persist nowIso st.updatedHashes]

/-- The remote event-id set after a run, as a list whose membership is
the specification: prefetched events not deleted by cleanup, plus every
id written during the run (a put at `<href>/<id>.ics` creates or
replaces that event). -/
def remoteAfter (existingEvents : List String) (keepIds : List String)
    (st : SyncState) : List String :=
  existingEvents.filter (fun e => keepIds.contains e) ++ putIds st.actions

/-- Ids of the qualifying tasks, in fetch order. -/
def qualifyingIds (tasks : List TaskInfo) : List String :=
  tasks.filterMap fun t => if qualifies t then some (taskId t) else none

/-- JSON values as received by the webhook and the task-source client.
Numbers are modelled as integers (no float appears in any claim). -/
inductive Json where
  | null
  | bool (b : Bool)
  | num (n : Int)
  | str (s : String)
  | arr (items : List Json)
  | obj (fields : List (String × Json))
deriving Repr

/-- Python truthiness of a JSON value. -/
def jsonTruthy : Json → Bool
  | .null => false
  | .bool b => b
  | .num n => n ≠ 0
  | .str s => !s.isEmpty
  | .arr items => !items.isEmpty
  | .obj fields => !fields.isEmpty

/-- First-match field lookup in a JSON object's field list (dict keys are
unique, so first-match is dict lookup). -/
def jlookup (fields : List (String × Json)) (k : String) : Option Json :=
  match fields with
  | [] => none
  | (k', v) :: rest => if k' = k then some v else jlookup rest k

/-- `dict.get` on a JSON value (`none` when the value is not an object,
standing in for the attribute errors such code would raise on non-dicts,
which no claim exercises). -/
def jget (j : Json) (k : String) : Option Json :=
  match j with
  | .obj fields => jlookup fields k
  | _ => none

/-- Python `x or y` over optional JSON values (`None` when a key is
absent): the first operand if truthy, otherwise the second. -/
def pyOr (a b : Option Json) : Option Json :=
  match a with
  | some v => if jsonTruthy v then some v else b
  | none => b

/-- Python `str()` of a JSON value, for the places the code stringifies
before comparing or storing.  Strings, integers, booleans and `None`
are exact; the container reprs are placeholders that agree with Python
on everything the claims observe (they are never equal to `"page"` and
never empty). -/
def pyStrOfJson : Json → String
  | .null => "None"
  | .bool true => "True"
  | .bool false => "False"
  | .num n => toString n
  | .str s => s
  | .arr _ => "[...]"
  | .obj _ => "\x7b...\x7d"

/-- Hex-digit test of Python `int(·, 16)`. -/
def isHexDigitChar (c : Char) : Bool :=
  c.isDigit || ('a' ≤ c && c ≤ 'f') || ('A' ≤ c && c ≤ 'F')

/-- Value of a hex digit. -/
def hexVal (c : Char) : Nat :=
  if c.isDigit then c.toNat - 48
  else if 'a' ≤ c then c.toNat - 87
  else c.toNat - 55

/-- Digit tail of Python's base-16 integer grammar: further digits with
single underscores allowed between digits (PEP 515). -/
def hexUnderscoreGo (acc : Nat) : List Char → Option Nat
  | [] => some acc
  | '_' :: c :: cs =>
      if isHexDigitChar c then hexUnderscoreGo (acc * 16 + hexVal c) cs else none
  | ['_'] => none
  | c :: cs =>
      if isHexDigitChar c then hexUnderscoreGo (acc * 16 + hexVal c) cs else none

/-- First digit of the grammar: at least one hex digit is required. -/
def hexUnderscoreStart : List Char → Option Nat
  | [] => none
  | c :: cs => if isHexDigitChar c then hexUnderscoreGo (hexVal c) cs else none

/-- Strip leading and trailing whitespace from a character list. -/
def trimWsChars (cs : List Char) : List Char :=
  ((cs.dropWhile Char.isWhitespace).reverse.dropWhile Char.isWhitespace).reverse

/-- Python `int(s, 16)` (the parser `uuid.UUID` applies to its hex
argument): optional surrounding whitespace, optional sign, optional
`0x`/`0X` prefix (itself optionally followed by one underscore), then
hex digits with single underscores between digits. -/
def pyIntBase16 (s : List Char) : Option Int :=
  let t := trimWsChars s
  let signAndRest : Int × List Char :=
    match t with
    | '+' :: r => (1, r)
    | '-' :: r => (-1, r)
    | r => (1, r)
  let body : Option Nat :=
    match signAndRest.2 with
    | '0' :: c :: rest2 =>
        if c = 'x' || c = 'X' then
          match rest2 with
          | '_' :: rest3 => hexUnderscoreStart rest3
          | _ => hexUnderscoreStart rest2
        else hexUnderscoreStart ('0' :: c :: rest2)
    | other => hexUnderscoreStart other
  match body with
  | none => none
  | some n => some (signAndRest.1 * (n : Int))

/-- Lowercase hex digit of a value below 16. -/
def toHexDigitChar (n : Nat) : Char :=
  if n < 10 then Char.ofNat (48 + n) else Char.ofNat (87 + n)

/-- The `k` low-order hex digits of `n`, most significant first
(Python's `'%032x' % int` with `k = 32`). -/
def hexDigitsOf (n : Nat) : Nat → List Char
  | 0 => []
  | k + 1 => hexDigitsOf (n / 16) k ++ [toHexDigitChar (n % 16)]

/-- `str(uuid.UUID(int=n))`: 32 zero-padded lowercase hex digits in
8-4-4-4-12 groups. -/
def formatUuid (n : Nat) : String :=
  let cs := hexDigitsOf n 32
  String.mk (cs.take 8) ++ "-" ++ String.mk ((cs.drop 8).take 4) ++ "-"
    ++ String.mk ((cs.drop 12).take 4) ++ "-" ++ String.mk ((cs.drop 16).take 4)
    ++ "-" ++ String.mk (cs.drop 20)

/-- Does `cs` contain `pat` as a contiguous substring? -/
def hasSubstr : List Char → List Char → Bool
  | [], pat => pat.isEmpty
  | c :: cs, pat => pat.isPrefixOf (c :: cs) || hasSubstr cs pat

/-- One of the two characters `str.strip("\x7b\x7d")` removes. -/
def isBraceChar (c : Char) : Bool := c.toNat = 123 || c.toNat = 125

/-- `webhook._normalize_page_id`.  Strings only; strip, drop every dash,
require 32 characters; then `uuid.UUID(candidate)` (library behaviour,
modelled): its `urn:`/`uuid:` removal and end-brace stripping strictly
shorten a string containing them, so a 32-character dash-free string
survives them iff it contains none; the remaining digits go through
Python `int(·, 16)` — which also tolerates underscores, a sign and a
`0x` prefix — and a 128-bit range check; the result is re-rendered as a
dashed lowercase UUID. -/
def normalize_page_id (v : Option Json) : Option String :=
  match v with
  | some (.str s) =>
      let candidate := pyStrip s
      if candidate.isEmpty then none
      else
        let normalized := candidate.toList.filter (· ≠ '-')
        if normalized.length ≠ 32 then none
        else if hasSubstr normalized "urn:".toList
            || hasSubstr normalized "uuid:".toList
            || (match normalized.head? with | some c => isBraceChar c | none => false)
            || (match normalized.getLast? with | some c => isBraceChar c | none => false) then
          none
        else
          match pyIntBase16 normalized with
          | none => none
          | some i =>
              if 0 ≤ i ∧ i < (2 : Int) ^ 128 then some (formatUuid i.toNat) else none
  | _ => none

/-- The keys treated as page-id carriers (`webhook._PAGE_ID_KEYS`). -/
def PAGE_ID_KEYS : List String := ["page_id", "pageId"]

/-- The `object`/`type` hint of a dict: the first truthy of the two
values, else `""`, stringified and lowercased (line 49 of webhook.py). -/
def hintOf (fields : List (String × Json)) : String :=
  match pyOr (jlookup fields "object") (jlookup fields "type") with
  | some v => pyLower (pyStrOfJson v)
  | none => pyLower ""

/-- Is a JSON value a dict? -/
def Json.isObj : Json → Bool
  | .obj _ => true
  | _ => false

/-- Is a JSON value a dict or a list? -/
def Json.isObjOrArr : Json → Bool
  | .obj _ => true
  | .arr _ => true
  | _ => false

mutual

/-- The sequence of candidate values passed to `_append` by
`webhook._collect_page_ids`'s recursive `_walk`, in call order; the
found list of the source is this sequence filtered through
`_normalize_page_id`. -/
def jwalkCands (parentKey : Option String) : Json → List (Option Json)
  | .obj fields =>
      let hintPart : List (Option Json) :=
        if hintOf fields = "page" ∨ parentKey = some "page" then
          [pyOr (jlookup fields "id") (jlookup fields "page_id")]
        else []
      hintPart ++ jwalkCandsFields fields
  | .arr items => jwalkCandsItems parentKey items
  | _ => []

/-- Per-field dispatch of `_walk`'s `for key, nested in value.items()`
loop (lines 52-65 of webhook.py). -/
def jwalkCandsFields : List (String × Json) → List (Option Json)
  | [] => []
  | (key, nested) :: rest =>
      (if PAGE_ID_KEYS.contains key then [some nested]
       else
        (if key = "parent" ∧ nested.isObj then [jget nested "page_id"] else [])
          ++ (if key = "value" ∧ nested.isObj then jwalkCands (some key) nested
              else if key = "payload" ∨ key = "data" ∨ key = "after" ∨ key = "before" then
                jwalkCands (some key) nested
              else if nested.isObjOrArr then jwalkCands (some key) nested
              else []))
        ++ jwalkCandsFields rest

/-- List recursion of `_walk` (the parent key is passed through). -/
def jwalkCandsItems (parentKey : Option String) : List Json → List (Option Json)
  | [] => []
  | x :: xs => jwalkCands parentKey x ++ jwalkCandsItems parentKey xs

end

/-- The `found` list of `_collect_page_ids`: every `_append` candidate
that normalizes, in call order. -/
def collectRawIds (payload : Json) : List String :=
  (jwalkCands none payload).filterMap normalize_page_id

/-- The ordered/seen deduplication loop at the end of
`_collect_page_ids` (lines 71-78 of webhook.py). -/
def pyDedupAux (seen : List String) : List String → List String
  | [] => []
  | x :: xs =>
      if seen.contains x then pyDedupAux seen xs
      else x :: pyDedupAux (x :: seen) xs

/-- `webhook._collect_page_ids`. -/
def collect_page_ids (payload : Json) : List String :=
  pyDedupAux [] (collectRawIds payload)

/-- Modelled from the spec: collapsing duplicates to their first
occurrence while preserving first-seen order (the spec's words for the
dedup step), written independently of the source loop for comparison. -/
def keepFirstSpec : List String → List String
  | [] => []
  | x :: xs => x :: keepFirstSpec (xs.filter (· ≠ x))
termination_by l => l.length
decreasing_by
  simp only [List.length_cons]
  exact Nat.lt_succ_of_le (List.length_filter_le _ _)

/-- Modelled from the spec: the property names of `constants.py` (the
file is absent); §4.3 requires a title, a status and a date property,
plus the reminder/category/description fields the codec serializes.
The concrete strings are placeholders — every claim is insensitive to
their exact values. -/
def TITLE_PROPERTY : String := "Title"

/-- Modelled from the spec: see `TITLE_PROPERTY`. -/
def STATUS_PROPERTY : String := "Status"

/-- Modelled from the spec: see `TITLE_PROPERTY`. -/
def DATE_PROPERTY : String := "Date"

/-- Modelled from the spec: see `TITLE_PROPERTY`. -/
def REMINDER_PROPERTY : String := "Reminder"

/-- Modelled from the spec: see `TITLE_PROPERTY`. -/
def CATEGORY_PROPERTY : String := "Category"

/-- Modelled from the spec: see `TITLE_PROPERTY`. -/
def DESCRIPTION_PROPERTY : String := "Description"

/-- A text item of a title property: `item.get("plain_text") or
item.get("text", \x7b\x7d).get("content")`, kept when truthy
(`notion.py` lines 166-172; only string texts are in model). -/
def titleItemText (item : Json) : Option String :=
  match item with
  | .obj ifs =>
      match pyOr (jlookup ifs "plain_text")
          (match jlookup ifs "text" with
           | some (.obj tfs) => jlookup tfs "content"
           | _ => none) with
      | some (.str t) => if t.isEmpty then none else some t
      | _ => none
  | _ => none

/-- `notion._extract_title_from_prop`. -/
def extract_title_from_prop (prop : Option Json) : String :=
  match prop with
  | some (.obj fs) =>
      match jlookup fs "type" with
      | some (.str ty) =>
          if ty = "title" then
            let items := match jlookup fs "title" with
              | some (.arr l) => l
              | _ => []
            pyStrip (String.join ((items.filterMap titleItemText)))
          else ""
      | _ => ""
  | _ => ""

/-- The title-fallback scan of `parse_page_to_task` (lines 181-185):
first non-empty title extracted from the other property values.  The
source skips the value that *is* `title_prop` by object identity, which
holds exactly for the entry at `TITLE_PROPERTY` when that key is
present. -/
def fallbackTitle (skipTitleKey : Bool) : List (String × Json) → String
  | [] => ""
  | (k, v) :: rest =>
      if skipTitleKey ∧ k = TITLE_PROPERTY then fallbackTitle skipTitleKey rest
      else
        let t := extract_title_from_prop (some v)
        if t.isEmpty then fallbackTitle skipTitleKey rest else t

/-- `props.get(K) or \x7b\x7d` followed by `.get(k2)`: the inner lookup
through a possibly-falsy property value. -/
def propGet (props : List (String × Json)) (k k2 : String) : Option Json :=
  match jlookup props k with
  | some (.obj fs) => jlookup fs k2
  | _ => none

/-- A string field of a JSON object lookup (non-string values are out of
model and read as absent). -/
def asStr : Option Json → Option String
  | some (.str s) => some s
  | _ => none

/-- `notion.parse_page_to_task`. -/
def parse_page_to_task (page : Json) : TaskInfo :=
  let props : List (String × Json) :=
    match jget page "properties" with
    | some (.obj fs) => fs
    | _ => []
  let titleProp := jlookup props TITLE_PROPERTY
  let title0 := extract_title_from_prop titleProp
  let title1 := if title0.isEmpty then fallbackTitle titleProp.isSome props else title0
  let title :=
    if title1.isEmpty then
      match asStr (jget page "id") with
      | some s => if s.isEmpty then "Untitled" else s
      | none => "Untitled"
    else title1
  let status := asStr (match propGet props STATUS_PROPERTY "status" with
    | some (.obj sfs) => jlookup sfs "name"
    | _ => none)
  let start := asStr (match propGet props DATE_PROPERTY "date" with
    | some (.obj dfs) => jlookup dfs "start"
    | _ => none)
  let endd := asStr (match propGet props DATE_PROPERTY "date" with
    | some (.obj dfs) => jlookup dfs "end"
    | _ => none)
  let reminder := asStr (match propGet props REMINDER_PROPERTY "date" with
    | some (.obj dfs) => jlookup dfs "start"
    | _ => none)
  let category :=
    match jlookup props CATEGORY_PROPERTY with
    | some (.obj cfs) =>
        (match jlookup cfs "type" with
         | some (.str ty) =>
             if ty = "select" then
               asStr (match jlookup cfs "select" with
                 | some (.obj sfs) => jlookup sfs "name"
                 | _ => none)
             else none
         | _ => none)
    | _ => none
  let description :=
    match jlookup props DESCRIPTION_PROPERTY with
    | some (.obj dfs) =>
        (match jlookup dfs "type" with
         | some (.str ty) =>
             if ty = "rich_text" then
               match jlookup dfs "rich_text" with
               | some (.arr (first :: _)) =>
                   (match first with
                    | .obj ffs =>
                        (match jlookup ffs "plain_text" with
                         | some (.str s) => some s
                         | some _ => some ""
                         | none => some "")
                    | _ => none)
               | _ => none
             else none
         | _ => none)
    | _ => none
  { notion_id := asStr (jget page "id")
    title := some title
    status := status
    start_date := start
    end_date := endd
    reminder := reminder
    category := category
    description := description
    url := asStr (jget page "url") }

/-- The calendar actions issued by `engine.handle_webhook_tasks` after
the calendar metadata is established (lines 329-344), with the fetch
`get_page`, the title lookup `get_database_title` and the renderer
`_build_ics_for_task · calendar_color` passed as pure functions. -/
def handle_webhook_tasks_trace (render : TaskInfo → String)
    (getPage : String → Json) (dbTitleOf : String → String) (href : String)
    (pageIds : List String) : List CalAction :=
  pageIds.foldl
    (fun acc pid =>
      let page := getPage pid
      let parentDb : Option Json :=
        match jget page "parent" with
        | some (.obj fs) => jlookup fs "database_id"
        | _ => none
      if !(match parentDb with | some v => jsonTruthy v | none => false) then acc
      else
        let task := parse_page_to_task page
        if jsonTruthy ((jget page "archived").getD .null) || !truthyStr task.start_date then
          acc ++ [.del (optPyStr task.notion_id) (event_url href (optPyStr task.notion_id))]
        else
          let dbId := (asStr parentDb).getD ""
          let task2 := { task with database_name := some (dbTitleOf dbId) }
          if !truthyStr task2.start_date then acc
          else if !truthyStr task2.notion_id then acc
          else acc ++ [.put (taskId task2) (event_url href (taskId task2)) (render task2)])
    []

/-- One response of the task-source API to a paginated listing request
(`data` in `notion.py`): the result items, the `has_more` flag
(falsy when absent) and the echoed continuation cursor (`none` for
absent/null, `some ""` falsy as in Python). -/
structure PageResponse where
  results : List Json := []
  hasMore : Bool := false
  nextCursor : Option String := none

/-- The shared pagination loop of `notion.list_databases`
(lines 52-78) and `notion.query_database_pages` (lines 116-151),
driven by the sequence of responses the API returns (the i-th iteration
consumes the i-th response) and a fuel bound; `none` means the loop has
not terminated within the given fuel. -/
def paginateAux (resp : Nat → PageResponse) : Nat → Nat → List Json → Option (List Json)
  | 0, _, _ => none
  | fuel + 1, i, acc =>
      let r := resp i
      let acc2 := acc ++ r.results
      if !r.hasMore then some acc2
      else
        match r.nextCursor with
        | none => some acc2
        | some c => if c.isEmpty then some acc2 else paginateAux resp fuel (i + 1) acc2

/-- The pagination of `notion.list_databases`. -/
def listDatabasesLoop (resp : Nat → PageResponse) (fuel : Nat) : Option (List Json) :=
  paginateAux resp fuel 0 []

/-- The pagination of `notion.query_database_pages` (same loop skeleton,
different request body and result handling). -/
def queryDatabasePagesLoop (resp : Nat → PageResponse) (fuel : Nat) : Option (List Json) :=
  paginateAux resp fuel 0 []

/-- A response sequence after which the loop stops: the response reports
no more pages, or echoes a missing/empty continuation cursor. -/
def stopsPagination (r : PageResponse) : Prop :=
  r.hasMore = false ∨ r.nextCursor = none ∨ r.nextCursor = some ""

/-- An HTTP response of the webhook handler (status and body). -/
structure WebhookResponse where
  status : Nat
  body : String
deriving Repr, DecidableEq

/-- The observable outcome of `webhook.handle` on one request: the
response, the stored verification token afterwards, and whether the
request proceeded past authentication into id extraction and
incremental sync. -/
structure WebhookOutcome where
  response : WebhookResponse
  storedTokenAfter : Option String
  proceeded : Bool
deriving Repr, DecidableEq

/-- The `verification_token` field of the parsed body when the body is a
dict (`webhook.py` lines 118-120). -/
def extractVerificationToken (data : Option Json) : Option Json :=
  match data with
  | some (.obj fs) => jlookup fs "verification_token"
  | _ => none

/-- The token the signature check uses: the stored one, else a token
seeded (and persisted) from the `WEBHOOK_VERIFICATION_TOKEN`
configuration value (lines 135-141).  `stored` is the result of
`load_webhook_token`, which already strips and drops empty values. -/
def effectiveStoredToken (stored : Option String) (envSeed : String) : Option String :=
  match stored with
  | some t => some t
  | none =>
      let seed := pyStrip envSeed
      if seed.isEmpty then none else some seed

/-- `webhook.handle` after the body has been read and JSON-parsed
(`data = none` models invalid JSON).  `hmacHex tok raw` stands for
`hmac.new(tok, raw, sha256).hexdigest()`; `hmac.compare_digest` is
constant-time string equality, embedded as equality.  The success-path
response body (the accepted id list) is not modelled ("ok"); every
400/401 body is the source's literal string. -/
def webhook_handle (hmacHex : String → String → String) (raw : String)
    (data : Option Json) (stored : Option String) (envSeed : String)
    (sigHeader : Option String) : WebhookOutcome :=
  let vt := extractVerificationToken data
  if (match vt with | some v => jsonTruthy v | none => false) then
    let tok := pyStrip (pyStrOfJson (vt.getD .null))
    if tok.isEmpty then ⟨⟨400, "Invalid verification_token"⟩, stored, false⟩
    else ⟨⟨200, "\x7b\"verification_token\": \"" ++ tok ++ "\"\x7d"⟩, some tok, false⟩
  else
    match data with
    | none => ⟨⟨400, "Invalid JSON"⟩, stored, false⟩
    | some _ =>
        match effectiveStoredToken stored envSeed with
        | none => ⟨⟨401, "Unauthorized - Missing stored verification token"⟩, none, false⟩
        | some tok =>
            if !truthyStr sigHeader then
              ⟨⟨401, "Unauthorized - No signature"⟩, some tok, false⟩
            else
              let sig := sigHeader.getD ""
              if "sha256=" ++ hmacHex tok raw = sig then
                ⟨⟨200, "ok"⟩, some tok, true⟩
              else ⟨⟨401, "Unauthorized - Invalid signature"⟩, some tok, false⟩

/-- The Boolean final-status test of `_is_task_overdue` line 187. -/
def finalStatusB (task : TaskInfo) : Bool :=
  match normalize_status_name task.status with
  | some s => FINAL_STATUSES.contains s
  | none => false

lemma normalize_ne_overdue (st : Option String) :
    normalize_status_name st ≠ some "Overdue" := by
  unfold normalize_status_name
  cases st with
  | none => simp
  | some s =>
      dsimp only
      split_ifs <;> simp

lemma is_task_overdue_iff (task : TaskInfo) (now : Int) :
    is_task_overdue task now = true ↔
      finalStatusB task = false
        ∧ (truthyStr task.start_date = true ∨ truthyStr task.end_date = true)
        ∧ ∃ due, parse_iso_datetime (dueSourceOf task) (allDayDueOf task) = some due
            ∧ due < now := by
  unfold is_task_overdue
  rw [show (match normalize_status_name task.status with
        | some s => FINAL_STATUSES.contains s
        | none => false) = finalStatusB task from rfl]
  cases hs : truthyStr task.start_date <;> cases he : truthyStr task.end_date <;>
    cases hf : finalStatusB task <;>
    cases hp : parse_iso_datetime (dueSourceOf task) (allDayDueOf task) <;>
    simp_all

/-- C4: for every task, the derived display status is `Overdue` iff the
normalized status is not final (`Completed`/`Cancelled`), at least one
of start/end is set, and the effective due time — end if present else
start, a date-only value read as 23:59:59 of its day, zone-less stamps
read as UTC (all embodied in `parse_iso_datetime`/`dueSourceOf`/
`allDayDueOf`) — is before the current UTC time; an unparseable due
value never yields `Overdue` (and the function is total, so it never
raises). -/
theorem C4_overdue_characterization (task : TaskInfo) (now : Int) :
    status_for_task task now = "Overdue" ↔
      finalStatusB task = false
        ∧ (truthyStr task.start_date = true ∨ truthyStr task.end_date = true)
        ∧ ∃ due, parse_iso_datetime (dueSourceOf task) (allDayDueOf task) = some due
            ∧ due < now := by
  rw [← is_task_overdue_iff]
  unfold status_for_task
  cases ho : is_task_overdue task now with
  | true => simp
  | false =>
      simp only [if_false, Bool.false_eq_true, iff_false]
      cases hn : normalize_status_name task.status with
      | none => simp
      | some v =>
          have := normalize_ne_overdue task.status
          rw [hn] at this
          simpa using fun hv => this (by simp [hv])

/-- Witness for C4 at a concrete overdue task. -/
theorem C4_witness :
    status_for_task
        { notion_id := some "t1", status := some "In progress",
          start_date := some "2024-01-01" } 1704240000 = "Overdue" ↔
      finalStatusB
          { notion_id := some "t1", status := some "In progress",
            start_date := some "2024-01-01" } = false
        ∧ (truthyStr (some "2024-01-01") = true ∨ truthyStr none = true)
        ∧ ∃ due,
            parse_iso_datetime
                (dueSourceOf
                  { notion_id := some "t1", status := some "In progress",
                    start_date := some "2024-01-01" })
                (allDayDueOf
                  { notion_id := some "t1", status := some "In progress",
                    start_date := some "2024-01-01" }) = some due
              ∧ due < 1704240000 :=
  C4_overdue_characterization _ _

/-- The elapsed-interval condition of the scheduling-gate claim, stated
over the embedded settings: due iff no recorded value, or the recorded
value is empty/unparseable, or it parses (timezone-aware) to a time at
least the interval ago. -/
def gateDueSpec (s : GateSettings) (now : Int) : Prop :=
  ∀ l, s.last_full_sync = some l →
    (l.isEmpty = true ∨ parseIsoCore l = none
      ∨ ∃ t, parseIsoCore l = some (t, true)
          ∧ now - t ≥ (s.full_sync_interval_minutes.getD DEFAULT_FULL_SYNC_MINUTES) * 60)

/-- C8 (amended): for settings whose recorded last-full-sync value is
absent, unparseable, or parses to a timezone-aware datetime, the gate
returns a Boolean which is true iff no value is recorded, or it is
unparseable, or the elapsed time since it is at least the configured
interval in minutes (defaulted when absent).  (A parseable but
zone-naive recorded value instead raises, see `C8_counterexample`.) -/
theorem C8_gate_characterization (s : GateSettings) (now : Int)
    (h : ∀ l t, s.last_full_sync = some l → parseIsoCore l ≠ some (t, false)) :
    ∃ b, full_sync_due s now = .ok b ∧ (b = true ↔ gateDueSpec s now) := by
  unfold full_sync_due gateDueSpec
  cases hl : s.last_full_sync with
  | none => exact ⟨true, rfl, by simp⟩
  | some l =>
      cases hemp : l.isEmpty with
      | true => exact ⟨true, by simp [hemp], by simp [hemp]⟩
      | false =>
          cases hp : parseIsoCore l with
          | none => exact ⟨true, by simp [hemp, hp], by simp [hp]⟩
          | some pair =>
              obtain ⟨t, aware⟩ := pair
              cases aware with
              | false => exact absurd hp (h l t hl)
              | true =>
                  refine ⟨decide (now - t ≥ (s.full_sync_interval_minutes.getD
                    DEFAULT_FULL_SYNC_MINUTES) * 60), by simp [hemp, hp], ?_⟩
                  simp [hemp, hp]

/-- Witness for C8: the three concrete instances named by the claim —
empty settings are due; last sync now with a 60-minute interval is not
due; last sync 61 minutes ago with a 60-minute interval is due
(epoch 1704067200 is 2024-01-01T00:00:00+00:00). -/
theorem C8_witness :
    (∃ b, full_sync_due {} 1704067200 = .ok b ∧ (b = true ↔ gateDueSpec {} 1704067200))
    ∧ full_sync_due
        { last_full_sync := some "2024-01-01T00:00:00+00:00",
          full_sync_interval_minutes := some 60 } 1704067200 = .ok false
    ∧ full_sync_due
        { last_full_sync := some "2024-01-01T00:00:00+00:00",
          full_sync_interval_minutes := some 60 } (1704067200 + 3660) = .ok true := by
  refine ⟨C8_gate_characterization {} 1704067200 ?_, rfl, rfl⟩
  intro l t hl
  exact absurd hl (by simp [GateSettings.last_full_sync])

/-- Counterexample for C8 as stated: a recorded value that parses but
carries no timezone makes the gate raise `TypeError` (the aware-naive
subtraction is outside the `ValueError` catch), so the gate returns
neither true nor false although the claim's condition (elapsed ≥
interval) holds at this input. -/
theorem C8_counterexample :
    full_sync_due
        { last_full_sync := some "2024-01-01T00:00:00",
          full_sync_interval_minutes := some 60 } (1704067200 + 3660) =
      .error "TypeError: cannot subtract offset-naive and offset-aware datetimes"
    ∧ parseIsoCore "2024-01-01T00:00:00" = some (1704067200, false) :=
  ⟨rfl, rfl⟩

lemma alookup_ainsert_self (l : List (String × String)) (k v : String) :
    alookup (ainsert l k v) k = some v := by
  simp [ainsert, alookup]

/-- C1: in the diff loop of full sync, a qualifying task (truthy start
date and id) is written iff its freshly computed payload hash differs
from the ledger entry under its id or its id is absent from the current
remote-id set; otherwise it is skipped with no calendar action (and the
skip counter incremented); in both cases the id is appended to the
should-exist list and the fresh hash recorded in the new ledger. -/
theorem C1_write_iff (render : TaskInfo → String) (hashFn : String → String)
    (storedHashes : List (String × String)) (href : String) (st : SyncState)
    (task : TaskInfo)
    (hstart : truthyStr task.start_date = true)
    (hid : truthyStr task.notion_id = true) :
    ((fullSyncStep render hashFn storedHashes href st task).actions ≠ st.actions
        ↔ alookup storedHashes (taskId task) ≠ some (hashFn (render task))
            ∨ smem st.existing (taskId task) = false)
      ∧ (alookup storedHashes (taskId task) ≠ some (hashFn (render task))
            ∨ smem st.existing (taskId task) = false →
          (fullSyncStep render hashFn storedHashes href st task).actions =
            st.actions
              ++ [.put (taskId task) (event_url href (taskId task)) (render task)])
      ∧ (alookup storedHashes (taskId task) = some (hashFn (render task))
            ∧ smem st.existing (taskId task) = true →
          (fullSyncStep render hashFn storedHashes href st task).actions = st.actions
            ∧ (fullSyncStep render hashFn storedHashes href st task).skips = st.skips + 1)
      ∧ (fullSyncStep render hashFn storedHashes href st task).updatedIds
          = st.updatedIds ++ [taskId task]
      ∧ alookup (fullSyncStep render hashFn storedHashes href st task).updatedHashes
          (taskId task) = some (hashFn (render task)) := by
  have happend : st.actions
      ++ [CalAction.put (taskId task) (event_url href (taskId task)) (render task)]
      ≠ st.actions := by
    intro heq
    have := congrArg List.length heq
    simp at this
  unfold fullSyncStep
  rw [hstart, hid]
  simp only [Bool.not_true, Bool.false_eq_true, if_false]
  by_cases hcond : alookup storedHashes (taskId task) ≠ some (hashFn (render task))
      ∨ ¬ smem st.existing (taskId task) = true
  · rw [if_pos hcond]
    refine ⟨?_, ?_, ?_, rfl, alookup_ainsert_self _ _ _⟩
    · simpa [Bool.not_eq_true] using iff_of_true happend hcond
    · intro _; rfl
    · intro ⟨h1, h2⟩
      rcases hcond with h | h
      · exact absurd h1 h
      · exact absurd h2 h
  · rw [if_neg hcond]
    push_neg at hcond
    obtain ⟨h1, h2⟩ := hcond
    refine ⟨?_, ?_, fun _ => ⟨rfl, rfl⟩, rfl, alookup_ainsert_self _ _ _⟩
    · simp only [ne_eq, not_true_eq_false, false_iff, not_or]
      exact ⟨by simpa using h1, by simp [h2]⟩
    · intro hor
      rcases hor with h | h
      · exact absurd h1 h
      · rw [h2] at h; cases h

/-- Witness for C1: a fresh task against an empty ledger and empty
remote set is written, recorded in the should-exist list and the new
ledger. -/
theorem C1_witness :
    truthyStr (TaskInfo.start_date
        { notion_id := some "t1", start_date := some "2024-01-01" }) = true
      ∧ truthyStr (TaskInfo.notion_id
          { notion_id := some "t1", start_date := some "2024-01-01" }) = true
      ∧ (fullSyncStep (fun _ => "X") id [] "https://cal"
            { existing := [], updatedIds := [], updatedHashes := [], skips := 0,
              actions := [] }
            { notion_id := some "t1", start_date := some "2024-01-01" }).actions
          = [.put "t1" "https://cal/t1.ics" "X"] := by
  refine ⟨by decide, by decide, ?_⟩
  have h := C1_write_iff (fun _ => "X") id [] "https://cal"
    { existing := [], updatedIds := [], updatedHashes := [], skips := 0, actions := [] }
    { notion_id := some "t1", start_date := some "2024-01-01" }
    (by decide) (by decide)
  have hw := h.2.1 (Or.inl (by simp [alookup, taskId]))
  rw [hw]
  decide

lemma fullSyncStep_actions_cases (render : TaskInfo → String)
    (hashFn : String → String) (storedHashes : List (String × String))
    (href : String) (st : SyncState) (task : TaskInfo) :
    (fullSyncStep render hashFn storedHashes href st task).actions = st.actions
      ∨ ∃ tid url ics,
          (fullSyncStep render hashFn storedHashes href st task).actions
            = st.actions ++ [.put tid url ics] := by
  unfold fullSyncStep
  dsimp only
  split_ifs
  · exact Or.inl rfl
  · exact Or.inl rfl
  · exact Or.inr ⟨_, _, _, rfl⟩
  · exact Or.inl rfl

lemma loop_actions_no_persist (render : TaskInfo → String)
    (hashFn : String → String) (storedHashes : List (String × String))
    (href : String) :
    ∀ (tasks : List TaskInfo) (st : SyncState),
      (∀ a ∈ st.actions, a.isPersist = false) →
      ∀ a ∈ (tasks.foldl (fullSyncStep render hashFn storedHashes href) st).actions,
        a.isPersist = false := by
  intro tasks
  induction tasks with
  | nil => intro st h; simpa using h
  | cons t ts ih =>
      intro st h
      simp only [List.foldl_cons]
      refine ih (fullSyncStep render hashFn storedHashes href st t) ?_
      rcases fullSyncStep_actions_cases render hashFn storedHashes href st t with
        heq | ⟨tid, url, ics, heq⟩
      · rw [heq]; exact h
      · rw [heq]
        intro a ha
        rcases List.mem_append.mp ha with ha | ha
        · exact h a ha
        · simp only [List.mem_singleton] at ha
          rw [ha]; rfl

/-- C5: the settings persistence (new hash ledger plus last-full-sync
timestamp) is the last action of a full-sync run and appears in no
proper prefix of the run's action trace — so a run that fails at any
point before completion has performed no settings write, leaving the
previously stored ledger and timestamp intact. -/
theorem C5_persist_only_at_end (render : TaskInfo → String)
    (hashFn : String → String) (storedHashes : List (String × String))
    (href : String) (existingIds : List String) (tasks : List TaskInfo)
    (nowIso : String) (p : List CalAction)
    (hp : p <+: runFullSyncTrace render hashFn storedHashes href existingIds tasks nowIso)
    (hne : p ≠ runFullSyncTrace render hashFn storedHashes href existingIds tasks nowIso) :
    (∀ a ∈ p, a.isPersist = false)
      ∧ (runFullSyncTrace render hashFn storedHashes href existingIds tasks
            nowIso).getLast?
          = some (.persist nowIso
              (runFullSyncLoop render hashFn storedHashes href existingIds
                tasks).updatedHashes) := by
  have hfront : ∀ a ∈ (runFullSyncLoop render hashFn storedHashes href existingIds
        tasks).actions
      ++ (cleanupDeletes existingIds
            (runFullSyncLoop render hashFn storedHashes href existingIds
              tasks).updatedIds).map
          (fun e => CalAction.del e (event_url href e)), a.isPersist = false := by
    intro a ha
    rcases List.mem_append.mp ha with ha | ha
    · exact loop_actions_no_persist render hashFn storedHashes href tasks _
        (by simp) a ha
    · obtain ⟨e, _, hae⟩ := List.mem_map.mp ha
      rw [← hae]; rfl
  have htr : runFullSyncTrace render hashFn storedHashes href existingIds tasks nowIso
      = ((runFullSyncLoop render hashFn storedHashes href existingIds tasks).actions
          ++ (cleanupDeletes existingIds
                (runFullSyncLoop render hashFn storedHashes href existingIds
                  tasks).updatedIds).map
              (fun e => CalAction.del e (event_url href e)))
        ++ [.persist nowIso
            (runFullSyncLoop render hashFn storedHashes href existingIds
              tasks).updatedHashes] := by
    simp [runFullSyncTrace]
  refine ⟨?_, by rw [htr]; exact List.getLast?_concat _⟩
  rw [htr] at hp hne
  rcases hp with ⟨s, hs⟩
  cases s with
  | nil =>
      exact absurd (by simpa using hs) hne
  | cons b bs =>
      have hplen : p.length ≤ ((runFullSyncLoop render hashFn storedHashes href
          existingIds tasks).actions
        ++ (cleanupDeletes existingIds
              (runFullSyncLoop render hashFn storedHashes href existingIds
                tasks).updatedIds).map
            (fun e => CalAction.del e (event_url href e))).length := by
        have hlen := congrArg List.length hs
        simp only [List.length_append, List.length_cons, List.length_nil] at hlen ⊢
        omega
      have hpre : p <+: (runFullSyncLoop render hashFn storedHashes href existingIds
          tasks).actions
        ++ (cleanupDeletes existingIds
              (runFullSyncLoop render hashFn storedHashes href existingIds
                tasks).updatedIds).map
            (fun e => CalAction.del e (event_url href e)) :=
        List.prefix_of_prefix_length_le ⟨b :: bs, hs⟩ ⟨_, rfl⟩ hplen
      exact fun a ha => hfront a (hpre.subset ha)

/-- Witness for C5 at a concrete run (one task, one stale remote event)
and the empty proper prefix. -/
theorem C5_witness :
    ([] : List CalAction) <+: runFullSyncTrace (fun _ => "X") id [] "https://cal"
        ["stale"] [{ notion_id := some "t1", start_date := some "2024-01-01" }] "NOW"
      ∧ ([] : List CalAction) ≠ runFullSyncTrace (fun _ => "X") id [] "https://cal"
          ["stale"] [{ notion_id := some "t1", start_date := some "2024-01-01" }] "NOW"
      ∧ (runFullSyncTrace (fun _ => "X") id [] "https://cal" ["stale"]
            [{ notion_id := some "t1", start_date := some "2024-01-01" }] "NOW").getLast?
          = some (.persist "NOW" [("t1", "X")]) := by
  refine ⟨⟨_, rfl⟩, by decide, ?_⟩
  have h := C5_persist_only_at_end (fun _ => "X") id [] "https://cal" ["stale"]
    [{ notion_id := some "t1", start_date := some "2024-01-01" }] "NOW" []
    ⟨_, rfl⟩ (by decide)
  have h2 := h.2
  rw [h2]
  rfl

/-- C3 (the code's behaviour at the failing input): a webhook batch
whose fetch returns a gone record (`\x7b"object": "error"\x7d`, no
parent database) produces no calendar action at all — in particular no
delete — because `handle_webhook_tasks` skips any page without
`parent.database_id` before the archived/start checks.  The repository's
own test `test_handle_webhook_tasks_deletes_when_page_missing` expects
exactly one delete here. -/
theorem C3_gone_record_not_deleted :
    handle_webhook_tasks_trace (fun _ => "ICS")
        (fun _ => Json.obj [("object", Json.str "error")]) (fun _ => "DB")
        "https://calendar" ["1234abcd-1234-abcd-1234-abcd1234abcd"] = []
      ∧ handle_webhook_tasks_trace (fun _ => "ICS")
          (fun _ => Json.obj [("id", Json.str "p1"), ("archived", Json.bool true),
            ("parent", Json.obj [("database_id", Json.str "db1")])])
          (fun _ => "DB") "https://calendar" ["p1"]
          = [.del "p1" "https://calendar/p1.ics"] :=
  ⟨rfl, by decide⟩

/-- A response stream that always reports more pages and forever echoes
the same, already-seen continuation cursor. -/
def repeatedCursorResp : Nat → PageResponse :=
  fun _ => { results := [], hasMore := true, nextCursor := some "c" }

lemma paginateAux_repeated_none :
    ∀ (fuel i : Nat) (acc : List Json),
      paginateAux repeatedCursorResp fuel i acc = none := by
  intro fuel
  induction fuel with
  | zero => intro i acc; rfl
  | succ n ih => intro i acc; simpa [paginateAux, repeatedCursorResp] using ih (i + 1) _

/-- Counterexample for C9 as stated: against a response stream that
keeps reporting more pages while echoing the same previously seen
cursor, neither paginated listing operation ever terminates — no fuel
bound suffices (the loops guard a missing cursor but carry no
repeated-cursor check). -/
theorem C9_counterexample :
    (¬ ∃ fuel, (listDatabasesLoop repeatedCursorResp fuel).isSome = true)
      ∧ (¬ ∃ fuel, (queryDatabasePagesLoop repeatedCursorResp fuel).isSome = true)
      ∧ (∀ i, repeatedCursorResp i = repeatedCursorResp 0) := by
  refine ⟨?_, ?_, fun _ => rfl⟩
  · rintro ⟨fuel, hf⟩
    rw [show listDatabasesLoop repeatedCursorResp fuel
        = paginateAux repeatedCursorResp fuel 0 [] from rfl,
      paginateAux_repeated_none] at hf
    cases hf
  · rintro ⟨fuel, hf⟩
    rw [show queryDatabasePagesLoop repeatedCursorResp fuel
        = paginateAux repeatedCursorResp fuel 0 [] from rfl,
      paginateAux_repeated_none] at hf
    cases hf

lemma paginateAux_stops (resp : Nat → PageResponse) :
    ∀ (fuel i : Nat) (acc : List Json),
      (∃ j, j < fuel ∧ stopsPagination (resp (i + j))) →
      (paginateAux resp fuel i acc).isSome = true := by
  intro fuel
  induction fuel with
  | zero => rintro i acc ⟨j, hj, _⟩; omega
  | succ n ih =>
      rintro i acc ⟨j, hj, hstop⟩
      unfold paginateAux
      dsimp only
      cases hm : (resp i).hasMore with
      | false => simp [hm]
      | true =>
          cases hc : (resp i).nextCursor with
          | none => simp [hm, hc]
          | some c =>
              cases hce : c.isEmpty with
              | true => simp [hm, hc, hce]
              | false =>
                  simp only [hm, hc, hce, Bool.not_true, Bool.false_eq_true, if_false]
                  cases j with
                  | zero =>
                      exfalso
                      rcases hstop with h | h | h
                      · rw [Nat.add_zero] at h; rw [h] at hm; cases hm
                      · rw [Nat.add_zero] at h; rw [h] at hc; cases hc
                      · rw [Nat.add_zero] at h; rw [h] at hc
                        cases hc
                        cases hce
                  | succ j' =>
                      exact ih (i + 1) _ ⟨j', by omega,
                        by rw [show i + 1 + j' = i + (j' + 1) by omega]; exact hstop⟩

/-- C9 (amended): the paginated listing operations terminate whenever
some response in the stream reports no more pages or echoes a missing
or empty continuation cursor; a stream that forever reports more pages
with a non-empty (even repeated) cursor is followed indefinitely (see
`C9_counterexample`). -/
theorem C9_termination_on_stop (resp : Nat → PageResponse) (i : Nat)
    (h : stopsPagination (resp i)) :
    (∃ fuel, (listDatabasesLoop resp fuel).isSome = true)
      ∧ (∃ fuel, (queryDatabasePagesLoop resp fuel).isSome = true) :=
  ⟨⟨i + 1, paginateAux_stops resp (i + 1) 0 [] ⟨i, by omega, by simpa using h⟩⟩,
   ⟨i + 1, paginateAux_stops resp (i + 1) 0 [] ⟨i, by omega, by simpa using h⟩⟩⟩

/-- Witness for C9 at a concrete single-page response stream. -/
theorem C9_witness :
    stopsPagination ((fun _ => ({} : PageResponse)) 0)
      ∧ (∃ fuel, (listDatabasesLoop (fun _ => ({} : PageResponse)) fuel).isSome = true)
      ∧ (∃ fuel, (queryDatabasePagesLoop (fun _ => ({} : PageResponse)) fuel).isSome
          = true) := by
  have h := C9_termination_on_stop (fun _ => ({} : PageResponse)) 0 (Or.inl rfl)
  exact ⟨Or.inl rfl, h.1, h.2⟩

/-- C6 (amended): for every webhook request whose body parses as JSON
without a truthy `verification_token`: with no stored token and no
configuration seed the status is 401; with an effective token but a
missing/empty signature header the status is 401; with a signature
header differing (under `hmac.compare_digest`, i.e. equality) from
`sha256=` + the hex HMAC-SHA256 of the exact raw body keyed by that
token the status is 401 and processing does not proceed; only the
correct signature over the exact raw body proceeds (status 200).  The
response *bodies*, however, distinguish the missing-token case from the
signature failures, so the 401 responses do reveal whether a stored
token exists (see `C6_counterexample`). -/
theorem C6_auth_characterization (hmacHex : String → String → String)
    (raw : String) (data : Option Json) (d : Json) (stored : Option String)
    (envSeed : String) (sigHeader : Option String)
    (hdata : data = some d)
    (htok : (match extractVerificationToken data with
             | some v => jsonTruthy v
             | none => false) = false) :
    (effectiveStoredToken stored envSeed = none →
        webhook_handle hmacHex raw data stored envSeed sigHeader
          = ⟨⟨401, "Unauthorized - Missing stored verification token"⟩, none, false⟩)
      ∧ (∀ tok, effectiveStoredToken stored envSeed = some tok →
          truthyStr sigHeader = false →
          webhook_handle hmacHex raw data stored envSeed sigHeader
            = ⟨⟨401, "Unauthorized - No signature"⟩, some tok, false⟩)
      ∧ (∀ tok sig, effectiveStoredToken stored envSeed = some tok →
          sigHeader = some sig → sig.isEmpty = false →
          sig ≠ "sha256=" ++ hmacHex tok raw →
          webhook_handle hmacHex raw data stored envSeed sigHeader
            = ⟨⟨401, "Unauthorized - Invalid signature"⟩, some tok, false⟩)
      ∧ (∀ tok, effectiveStoredToken stored envSeed = some tok →
          sigHeader = some ("sha256=" ++ hmacHex tok raw) →
          (webhook_handle hmacHex raw data stored envSeed sigHeader).proceeded = true
            ∧ (webhook_handle hmacHex raw data stored envSeed
                sigHeader).response.status = 200) := by
  subst hdata
  unfold webhook_handle
  dsimp only
  rw [htok]
  simp only [Bool.false_eq_true, if_false]
  refine ⟨?_, ?_, ?_, ?_⟩
  · intro heff; rw [heff]
  · intro tok heff hsig
    rw [heff]
    have hcond : (!truthyStr sigHeader) = true := by rw [hsig]; rfl
    simp only [hcond, if_true]
  · intro tok sig heff hsome hne hdiff
    subst hsome
    rw [heff]
    have hcond : (!truthyStr (some sig)) = false := by simp [truthyStr, hne]
    simp only [hcond, Bool.false_eq_true, if_false, Option.getD_some]
    rw [if_neg (fun h => hdiff h.symm)]
  · intro tok heff hsome
    subst hsome
    rw [heff]
    have hemp : ("sha256=" ++ hmacHex tok raw).isEmpty = false := by
      cases hI : ("sha256=" ++ hmacHex tok raw).isEmpty with
      | true =>
          exfalso
          have hq := (String.isEmpty_iff _).mp hI
          have hlen := congrArg String.length hq
          rw [String.length_append] at hlen
          rw [show ("sha256=" : String).length = 7 from rfl] at hlen
          rw [show ("" : String).length = 0 from rfl] at hlen
          omega
      | false => rfl
    have hcond : (!truthyStr (some ("sha256=" ++ hmacHex tok raw))) = false := by
      simp [truthyStr, hemp]
    simp only [hcond, Bool.false_eq_true, if_false, Option.getD_some, if_pos rfl]
    exact ⟨rfl, rfl⟩

/-- Counterexample for C6 as stated: the same tokenless, signature-less
request yields 401 both with and without a stored token, but with
different response bodies — the missing-token body names the missing
token, so the 401 responses do reveal whether a stored token exists. -/
theorem C6_counterexample :
    (webhook_handle (fun _ _ => "") "" (some (Json.obj [])) none "" none).response.status
        = 401
      ∧ (webhook_handle (fun _ _ => "") "" (some (Json.obj [])) (some "tok") ""
            none).response.status = 401
      ∧ (webhook_handle (fun _ _ => "") "" (some (Json.obj [])) none "" none).response.body
        ≠ (webhook_handle (fun _ _ => "") "" (some (Json.obj [])) (some "tok") ""
            none).response.body := by
  refine ⟨rfl, rfl, ?_⟩
  decide

/-- Witness for C6: the four branches at concrete inputs. -/
theorem C6_witness :
    (webhook_handle (fun t r => "H" ++ t ++ r) "body" (some (Json.obj [])) none "" none
        = ⟨⟨401, "Unauthorized - Missing stored verification token"⟩, none, false⟩)
      ∧ (webhook_handle (fun t r => "H" ++ t ++ r) "body" (some (Json.obj []))
            (some "tok") "" none
          = ⟨⟨401, "Unauthorized - No signature"⟩, some "tok", false⟩)
      ∧ (webhook_handle (fun t r => "H" ++ t ++ r) "body" (some (Json.obj []))
            (some "tok") "" (some "sha256=WRONG")
          = ⟨⟨401, "Unauthorized - Invalid signature"⟩, some "tok", false⟩)
      ∧ (webhook_handle (fun t r => "H" ++ t ++ r) "body" (some (Json.obj []))
            (some "tok") "" (some "sha256=Htokbody")).proceeded = true := by
  have h := C6_auth_characterization (fun t r => "H" ++ t ++ r) "body"
    (some (Json.obj [])) (Json.obj []) (some "tok") "" (some "sha256=Htokbody")
    rfl rfl
  refine ⟨?_, ?_, ?_, ?_⟩
  · exact (C6_auth_characterization (fun t r => "H" ++ t ++ r) "body"
      (some (Json.obj [])) (Json.obj []) none "" none rfl rfl).1 rfl
  · exact (C6_auth_characterization (fun t r => "H" ++ t ++ r) "body"
      (some (Json.obj [])) (Json.obj []) (some "tok") "" none rfl rfl).2.1 "tok" rfl rfl
  · exact (C6_auth_characterization (fun t r => "H" ++ t ++ r) "body"
      (some (Json.obj [])) (Json.obj []) (some "tok") "" (some "sha256=WRONG")
      rfl rfl).2.2.1 "tok" "sha256=WRONG" rfl rfl (by decide) (by decide)
  · exact (h.2.2.2 "tok" rfl rfl).1

lemma trim_ne_empty_of_self {tok : String} (h : pyStrip tok ≠ "") :
    tok.isEmpty = false := by
  cases he : tok.isEmpty with
  | true => exact absurd (by rw [(String.isEmpty_iff _).mp he]; rfl) h
  | false => rfl

/-- C10 (amended): for every webhook request whose body parses as a JSON
object carrying a string `verification_token` that is non-empty after
trimming whitespace — on every such request, not only the first — the
handler persists the trimmed token (replacing any previously stored
one), responds 200 echoing the trimmed token, and performs no signature
verification or other authentication first (the outcome is the same for
every stored token and signature header).  A token that is whitespace
only is instead rejected with 400 and not persisted (see
`C10_counterexample`). -/
theorem C10_verification_token_persisted (hmacHex : String → String → String)
    (raw : String) (fs : List (String × Json)) (tok : String)
    (stored : Option String) (envSeed : String) (sigHeader : Option String)
    (hfield : jlookup fs "verification_token" = some (.str tok))
    (htrim : pyStrip tok ≠ "") :
    webhook_handle hmacHex raw (some (.obj fs)) stored envSeed sigHeader
      = ⟨⟨200, "\x7b\"verification_token\": \"" ++ pyStrip tok ++ "\"\x7d"⟩,
          some (pyStrip tok), false⟩ := by
  unfold webhook_handle
  dsimp only
  rw [show extractVerificationToken (some (.obj fs)) = jlookup fs "verification_token"
    from rfl]
  rw [hfield]
  simp only [jsonTruthy, trim_ne_empty_of_self htrim, Bool.not_false, if_true,
    Option.getD_some, pyStrOfJson]
  rw [if_neg (by simpa [String.isEmpty_iff] using htrim)]

/-- Counterexample for C10 as stated: a whitespace-only
`verification_token` is a non-empty string, yet the handler responds 400
and persists nothing (the stored token is left as it was). -/
theorem C10_counterexample :
    webhook_handle (fun _ _ => "") "" (some (.obj [("verification_token", .str " ")]))
        (some "old") "" none
      = ⟨⟨400, "Invalid verification_token"⟩, some "old", false⟩
      ∧ " " ≠ "" :=
  ⟨rfl, by decide⟩

/-- Witness for C10: a padded token is trimmed, persisted over the old
token, and echoed with status 200, with a signature header present but
ignored. -/
theorem C10_witness :
    webhook_handle (fun _ _ => "") "body"
        (some (.obj [("verification_token", .str " newtok ")]))
        (some "old") "seed" (some "sha256=sig")
      = ⟨⟨200, "\x7b\"verification_token\": \"newtok\"\x7d"⟩, some "newtok", false⟩ := by
  have h := C10_verification_token_persisted (fun _ _ => "") "body"
    [("verification_token", .str " newtok ")] " newtok " (some "old") "seed"
    (some "sha256=sig") rfl (by decide)
  rw [h]
  decide

lemma filter_not_mem_cons (x : String) (seen : List String) :
    ∀ ys : List String,
      ys.filter (fun y => !(x :: seen).contains y)
        = (ys.filter (fun y => !seen.contains y)).filter (fun y => y ≠ x) := by
  intro ys
  induction ys with
  | nil => rfl
  | cons z zs ihz =>
      by_cases hzx : z = x
      · subst hzx
        by_cases hzs : z ∈ seen <;> simp [hzs, ihz]
      · by_cases hzs : z ∈ seen <;> simp [hzx, hzs, ihz]

lemma pyDedupAux_eq_keepFirst :
    ∀ (l : List String) (seen : List String),
      pyDedupAux seen l = keepFirstSpec (l.filter (fun x => !seen.contains x)) := by
  intro l
  induction l with
  | nil => intro seen; simp [pyDedupAux, keepFirstSpec]
  | cons x xs ih =>
      intro seen
      by_cases hx : x ∈ seen
      · simp [pyDedupAux, hx, ih seen]
      · rw [show pyDedupAux seen (x :: xs) = x :: pyDedupAux (x :: seen) xs from by
            simp [pyDedupAux, hx]]
        rw [show (x :: xs).filter (fun y => !seen.contains y)
            = x :: xs.filter (fun y => !seen.contains y) from by simp [hx]]
        rw [keepFirstSpec]
        congr 1
        rw [ih (x :: seen), filter_not_mem_cons]

lemma keepFirstSpec_mem :
    ∀ (l : List String) (x : String), x ∈ keepFirstSpec l → x ∈ l := by
  intro l
  induction l using keepFirstSpec.induct with
  | case1 => intro x h; simp [keepFirstSpec] at h
  | case2 y ys ih =>
      intro x h
      rw [show keepFirstSpec (y :: ys) = y :: keepFirstSpec (ys.filter (· ≠ y))
        from by simp [keepFirstSpec]] at h
      rcases List.mem_cons.mp h with h | h
      · exact h ▸ List.mem_cons_self _ _
      · exact List.mem_cons_of_mem _ (List.mem_of_mem_filter (ih x h))

lemma keepFirstSpec_nodup : ∀ l : List String, (keepFirstSpec l).Nodup := by
  intro l
  induction l using keepFirstSpec.induct with
  | case1 => simp [keepFirstSpec]
  | case2 y ys ih =>
      rw [show keepFirstSpec (y :: ys) = y :: keepFirstSpec (ys.filter (· ≠ y))
        from by simp [keepFirstSpec]]
      refine List.nodup_cons.mpr ⟨fun hy => ?_, ih⟩
      have := List.of_mem_filter (keepFirstSpec_mem _ _ hy)
      simp at this

lemma normalize_page_id_shape (c : Option Json) (x : String)
    (h : normalize_page_id c = some x) : ∃ n : Nat, x = formatUuid n := by
  unfold normalize_page_id at h
  rcases c with _ | j
  · cases h
  cases j with
  | str s =>
      dsimp only at h
      split_ifs at h with h1 h2 h3
      cases hp : pyIntBase16 ((pyStrip s).toList.filter (· ≠ '-')) with
      | none => rw [hp] at h; exact Option.noConfusion h
      | some i =>
          rw [hp] at h
          dsimp only at h
          split_ifs at h with h4
          exact ⟨i.toNat, (Option.some.inj h).symm⟩
  | null => cases h
  | bool b => cases h
  | num n => cases h
  | arr items => cases h
  | obj fields => cases h

lemma collect_page_ids_eq_keepFirst (payload : Json) :
    collect_page_ids payload = keepFirstSpec (collectRawIds payload) := by
  unfold collect_page_ids
  rw [pyDedupAux_eq_keepFirst]
  congr 1
  exact List.filter_eq_self.mpr fun a _ => rfl

set_option maxRecDepth 40000 in
/-- C7 (amended): webhook id extraction returns the recursive-scan
candidates that survive `_normalize_page_id`, duplicates collapsed to
their first occurrence with first-seen order preserved
(`keepFirstSpec`), and every returned id is a normalized dashed
lowercase UUID rendering (`formatUuid`); a payload containing one
nested object with object `page` and a given 32-hex id (dashed or not)
yields exactly that one normalized id.  The claim's blanket rejection
of ids whose dash-stripped form is not 32 hex characters does not hold:
Python's `int(·, 16)` inside `uuid.UUID` also accepts underscore/sign/
`0x` variants (see `C7_counterexample`). -/
theorem C7_collect_page_ids :
    (∀ payload : Json,
        collect_page_ids payload = keepFirstSpec (collectRawIds payload)
          ∧ (collect_page_ids payload).Nodup
          ∧ ∀ x ∈ collect_page_ids payload, ∃ n : Nat, x = formatUuid n)
      ∧ collect_page_ids (Json.obj [("data", Json.obj [("object", Json.str "page"),
            ("id", Json.str "1234abcd-1234-abcd-1234-abcd1234abcd")])])
          = ["1234abcd-1234-abcd-1234-abcd1234abcd"]
      ∧ collect_page_ids (Json.obj [("data", Json.obj [("object", Json.str "page"),
            ("id", Json.str "1234abcd1234abcd1234abcd1234abcd")])])
          = ["1234abcd-1234-abcd-1234-abcd1234abcd"]
      ∧ collect_page_ids (Json.obj
            [("page_id", Json.str "1234abcd-1234-abcd-1234-abcd1234abcd"),
             ("pageId", Json.str "1234abcd1234abcd1234abcd1234abcd")])
          = ["1234abcd-1234-abcd-1234-abcd1234abcd"] := by
  refine ⟨fun payload => ⟨collect_page_ids_eq_keepFirst payload, ?_, ?_⟩, ?_, ?_, ?_⟩
  · rw [collect_page_ids_eq_keepFirst]
    exact keepFirstSpec_nodup _
  · intro x hx
    rw [collect_page_ids_eq_keepFirst] at hx
    have hraw : x ∈ collectRawIds payload := keepFirstSpec_mem _ _ hx
    obtain ⟨c, _, hc⟩ := List.mem_filterMap.mp hraw
    exact normalize_page_id_shape c x hc
  · simp [collect_page_ids, collectRawIds, jwalkCands, jwalkCandsFields,
      jwalkCandsItems, hintOf, pyOr, jlookup, jsonTruthy, pyStrOfJson, pyLower,
      PAGE_ID_KEYS, Json.isObj, Json.isObjOrArr, jget]
    decide
  · simp [collect_page_ids, collectRawIds, jwalkCands, jwalkCandsFields,
      jwalkCandsItems, hintOf, pyOr, jlookup, jsonTruthy, pyStrOfJson, pyLower,
      PAGE_ID_KEYS, Json.isObj, Json.isObjOrArr, jget]
    decide
  · simp [collect_page_ids, collectRawIds, jwalkCands, jwalkCandsFields,
      jwalkCandsItems, hintOf, pyOr, jlookup, jsonTruthy, pyStrOfJson, pyLower,
      PAGE_ID_KEYS, Json.isObj, Json.isObjOrArr, jget]
    decide

set_option maxRecDepth 40000 in
/-- Counterexample for C7 as stated: a 32-character candidate containing
an underscore is not 32 hex characters, yet extraction accepts it —
Python `int(·, 16)` tolerates an underscore between digits, so
`uuid.UUID` reparses the remaining 31 digits and zero-pads them into a
different normalized id instead of rejecting. -/
theorem C7_counterexample :
    collect_page_ids (Json.obj [("page_id", Json.str
        "0123456789abcdef0123456789abc_de")])
      = ["00123456-789a-bcde-f012-3456789abcde"]
      ∧ ¬ ("0123456789abcdef0123456789abc_de".toList.filter (· ≠ '-')).all
          isHexDigitChar := by
  constructor
  · simp [collect_page_ids, collectRawIds, jwalkCands, jwalkCandsFields,
      jwalkCandsItems, hintOf, pyOr, jlookup, jsonTruthy, pyStrOfJson, pyLower,
      PAGE_ID_KEYS, Json.isObj, Json.isObjOrArr, jget]
    decide
  · decide

/-- Witness for C7: the general clauses instantiated at the claim's own
example payload. -/
theorem C7_witness :
    (collect_page_ids (Json.obj [("data", Json.obj [("object", Json.str "page"),
          ("id", Json.str "1234abcd-1234-abcd-1234-abcd1234abcd")])])).Nodup
      ∧ ∃ n : Nat, "1234abcd-1234-abcd-1234-abcd1234abcd" = formatUuid n := by
  have h := C7_collect_page_ids
  have hp := h.1 (Json.obj [("data", Json.obj [("object", Json.str "page"),
    ("id", Json.str "1234abcd-1234-abcd-1234-abcd1234abcd")])])
  refine ⟨hp.2.1, hp.2.2 "1234abcd-1234-abcd-1234-abcd1234abcd" ?_⟩
  rw [h.2.1]
  exact List.mem_singleton.mpr rfl

lemma alookup_ainsert_ne (l : List (String × String)) (k v k' : String)
    (h : k' ≠ k) : alookup (ainsert l k v) k' = alookup l k' := by
  simp only [ainsert, alookup]
  rw [if_neg (fun hh : k = k' => h hh.symm)]

lemma step_nonqual (render : TaskInfo → String) (hashFn : String → String)
    (stored : List (String × String)) (href : String) (st : SyncState)
    (task : TaskInfo) (h : qualifies task = false) :
    fullSyncStep render hashFn stored href st task = st := by
  unfold qualifies at h
  unfold fullSyncStep
  cases hs : truthyStr task.start_date with
  | false => rfl
  | true =>
      rw [hs] at h
      simp only [Bool.true_and] at h
      rw [h]
      rfl

lemma step_qual (render : TaskInfo → String) (hashFn : String → String)
    (stored : List (String × String)) (href : String) (st : SyncState)
    (task : TaskInfo) (h : qualifies task = true) :
    (fullSyncStep render hashFn stored href st task).updatedIds
        = st.updatedIds ++ [taskId task]
      ∧ (fullSyncStep render hashFn stored href st task).updatedHashes
          = ainsert st.updatedHashes (taskId task) (hashFn (render task))
      ∧ (((fullSyncStep render hashFn stored href st task).actions
            = st.actions ++ [.put (taskId task) (event_url href (taskId task))
                (render task)]
            ∧ (fullSyncStep render hashFn stored href st task).existing
              = taskId task :: st.existing)
          ∨ ((fullSyncStep render hashFn stored href st task).actions = st.actions
              ∧ (fullSyncStep render hashFn stored href st task).existing = st.existing
              ∧ taskId task ∈ st.existing))
      ∧ (alookup stored (taskId task) = some (hashFn (render task))
            ∧ taskId task ∈ st.existing →
          (fullSyncStep render hashFn stored href st task).actions = st.actions
            ∧ (fullSyncStep render hashFn stored href st task).existing
              = st.existing) := by
  obtain ⟨hs, hi⟩ := Bool.and_eq_true _ _ |>.mp h
  unfold fullSyncStep
  rw [hs, hi]
  simp only [Bool.not_true, Bool.false_eq_true, if_false]
  by_cases hcond : alookup stored (taskId task) ≠ some (hashFn (render task))
      ∨ ¬ smem st.existing (taskId task) = true
  · rw [if_pos hcond]
    refine ⟨rfl, rfl, Or.inl ⟨rfl, rfl⟩, ?_⟩
    rintro ⟨h1, h2⟩
    rcases hcond with hc | hc
    · exact absurd h1 hc
    · exact absurd (by simpa [smem] using h2) hc
  · rw [if_neg hcond]
    push_neg at hcond
    refine ⟨rfl, rfl, Or.inr ⟨rfl, rfl, by simpa [smem] using hcond.2⟩,
      fun _ => ⟨rfl, rfl⟩⟩

lemma qualifyingIds_cons_true (t : TaskInfo) (ts : List TaskInfo)
    (h : qualifies t = true) :
    qualifyingIds (t :: ts) = taskId t :: qualifyingIds ts := by
  simp [qualifyingIds, h]

lemma qualifyingIds_cons_false (t : TaskInfo) (ts : List TaskInfo)
    (h : qualifies t = false) :
    qualifyingIds (t :: ts) = qualifyingIds ts := by
  simp [qualifyingIds, h]

lemma loop_updatedIds (render : TaskInfo → String) (hashFn : String → String)
    (stored : List (String × String)) (href : String) :
    ∀ (tasks : List TaskInfo) (st : SyncState),
      (tasks.foldl (fullSyncStep render hashFn stored href) st).updatedIds
        = st.updatedIds ++ qualifyingIds tasks := by
  intro tasks
  induction tasks with
  | nil => intro st; simp [qualifyingIds]
  | cons t ts ih =>
      intro st
      rw [List.foldl_cons]
      cases hq : qualifies t with
      | true =>
          rw [ih, (step_qual render hashFn stored href st t hq).1,
            qualifyingIds_cons_true t ts hq, List.append_assoc]
          rfl
      | false =>
          rw [step_nonqual render hashFn stored href st t hq, ih,
            qualifyingIds_cons_false t ts hq]

lemma loop_invariant (render : TaskInfo → String) (hashFn : String → String)
    (stored : List (String × String)) (href : String) :
    ∀ (tasks : List TaskInfo) (st : SyncState),
      ∃ newActs,
        (tasks.foldl (fullSyncStep render hashFn stored href) st).actions
            = st.actions ++ newActs
          ∧ (∀ x ∈ putIds newActs, x ∈ qualifyingIds tasks)
          ∧ (∀ x, x ∈ (tasks.foldl (fullSyncStep render hashFn stored href)
                st).existing
              ↔ x ∈ st.existing ∨ x ∈ putIds newActs)
          ∧ (∀ i ∈ qualifyingIds tasks,
              i ∈ (tasks.foldl (fullSyncStep render hashFn stored href) st).existing) := by
  intro tasks
  induction tasks with
  | nil =>
      intro st
      exact ⟨[], by simp, by simp [putIds], by simp [putIds], by simp [qualifyingIds]⟩
  | cons t ts ih =>
      intro st
      rw [List.foldl_cons]
      cases hq : qualifies t with
      | false =>
          rw [step_nonqual render hashFn stored href st t hq,
            qualifyingIds_cons_false t ts hq]
          exact ih st
      | true =>
          obtain ⟨newActs1, ha1, hsub1, hex1, hqm1⟩ :=
            ih (fullSyncStep render hashFn stored href st t)
          obtain ⟨_, _, hbr, _⟩ := step_qual render hashFn stored href st t hq
          rw [qualifyingIds_cons_true t ts hq]
          rcases hbr with ⟨hact, hexist⟩ | ⟨hact, hexist, hmem⟩
          · refine ⟨.put (taskId t) (event_url href (taskId t)) (render t) :: newActs1,
              ?_, ?_, ?_, ?_⟩
            · rw [ha1, hact, List.append_assoc]
              rfl
            · intro x hx
              rw [show putIds (.put (taskId t) (event_url href (taskId t)) (render t)
                  :: newActs1) = taskId t :: putIds newActs1 from rfl] at hx
              rcases List.mem_cons.mp hx with hx | hx
              · exact hx ▸ List.mem_cons_self _ _
              · exact List.mem_cons_of_mem _ (hsub1 x hx)
            · intro x
              rw [hex1, hexist,
                show putIds (.put (taskId t) (event_url href (taskId t)) (render t)
                  :: newActs1) = taskId t :: putIds newActs1 from rfl]
              simp only [List.mem_cons]
              tauto
            · intro i hi
              rcases List.mem_cons.mp hi with hi | hi
              · rw [hex1]
                exact Or.inl (hexist ▸ (hi ▸ List.mem_cons_self _ _))
              · exact hqm1 i hi
          · refine ⟨newActs1, ?_, ?_, ?_, ?_⟩
            · rw [ha1, hact]
            · exact fun x hx => List.mem_cons_of_mem _ (hsub1 x hx)
            · intro x
              rw [hex1, hexist]
            · intro i hi
              rcases List.mem_cons.mp hi with hi | hi
              · rw [hex1]
                exact Or.inl (hexist ▸ (hi ▸ hmem))
              · exact hqm1 i hi

lemma loop_hash_preserve (render : TaskInfo → String) (hashFn : String → String)
    (stored : List (String × String)) (href : String) :
    ∀ (tasks : List TaskInfo) (st : SyncState) (k : String),
      k ∉ qualifyingIds tasks →
      alookup (tasks.foldl (fullSyncStep render hashFn stored href) st).updatedHashes k
        = alookup st.updatedHashes k := by
  intro tasks
  induction tasks with
  | nil => intro st k _; rfl
  | cons t ts ih =>
      intro st k hk
      rw [List.foldl_cons]
      cases hq : qualifies t with
      | false =>
          rw [step_nonqual render hashFn stored href st t hq]
          exact ih st k (by rwa [qualifyingIds_cons_false t ts hq] at hk)
      | true =>
          rw [qualifyingIds_cons_true t ts hq] at hk
          have hne : k ≠ taskId t := fun hh => hk (hh ▸ List.mem_cons_self _ _)
          have hk2 : k ∉ qualifyingIds ts := fun hh => hk (List.mem_cons_of_mem _ hh)
          rw [ih _ k hk2, (step_qual render hashFn stored href st t hq).2.1,
            alookup_ainsert_ne _ _ _ _ hne]

lemma loop_hash_lookup (render : TaskInfo → String) (hashFn : String → String)
    (stored : List (String × String)) (href : String) :
    ∀ (tasks : List TaskInfo) (st : SyncState),
      (qualifyingIds tasks).Nodup →
      ∀ t ∈ tasks, qualifies t = true →
        alookup (tasks.foldl (fullSyncStep render hashFn stored href)
            st).updatedHashes (taskId t)
          = some (hashFn (render t)) := by
  intro tasks
  induction tasks with
  | nil => intro st _ t ht; cases ht
  | cons t0 ts ih =>
      intro st hnd t ht hqt
      rw [List.foldl_cons]
      cases hq : qualifies t0 with
      | false =>
          rw [step_nonqual render hashFn stored href st t0 hq]
          rw [qualifyingIds_cons_false t0 ts hq] at hnd
          rcases List.mem_cons.mp ht with ht | ht
          · rw [ht] at hqt; rw [hqt] at hq; cases hq
          · exact ih st hnd t ht hqt
      | true =>
          rw [qualifyingIds_cons_true t0 ts hq] at hnd
          have hnotin : taskId t0 ∉ qualifyingIds ts := (List.nodup_cons.mp hnd).1
          have hndts : (qualifyingIds ts).Nodup := (List.nodup_cons.mp hnd).2
          rcases List.mem_cons.mp ht with ht | ht
          · subst ht
            rw [loop_hash_preserve render hashFn stored href ts _ _ hnotin,
              (step_qual render hashFn stored href st t hq).2.1,
              alookup_ainsert_self]
          · exact ih _ hndts t ht hqt

lemma loop_skip_all (render : TaskInfo → String) (hashFn : String → String)
    (stored : List (String × String)) (href : String) :
    ∀ (tasks : List TaskInfo) (st : SyncState),
      (∀ t ∈ tasks, qualifies t = true →
        alookup stored (taskId t) = some (hashFn (render t))
          ∧ taskId t ∈ st.existing) →
      (tasks.foldl (fullSyncStep render hashFn stored href) st).actions
        = st.actions := by
  intro tasks
  induction tasks with
  | nil => intro st _; rfl
  | cons t ts ih =>
      intro st hyp
      rw [List.foldl_cons]
      cases hq : qualifies t with
      | false =>
          rw [step_nonqual render hashFn stored href st t hq]
          exact ih st fun t' ht' => hyp t' (List.mem_cons_of_mem _ ht')
      | true =>
          obtain ⟨hlook, hmem⟩ := hyp t (List.mem_cons_self _ _) hq
          obtain ⟨hact, hexist⟩ :=
            (step_qual render hashFn stored href st t hq).2.2.2 ⟨hlook, hmem⟩
          rw [ih _ fun t' ht' hq' => by
              rw [hexist]; exact hyp t' (List.mem_cons_of_mem _ ht') hq',
            hact]

lemma second_run_all_skip (render1 render2 : TaskInfo → String)
    (hashFn : String → String) (storedHashes : List (String × String))
    (href : String) (remote : List String) (tasks : List TaskInfo)
    (hnd : (qualifyingIds tasks).Nodup)
    (hsame : ∀ t ∈ tasks, qualifies t = true → render2 t = render1 t) :
    (runFullSyncLoop render2 hashFn
        (runFullSyncLoop render1 hashFn storedHashes href remote tasks).updatedHashes
        href
        (remoteAfter remote
          (runFullSyncLoop render1 hashFn storedHashes href remote tasks).updatedIds
          (runFullSyncLoop render1 hashFn storedHashes href remote tasks))
        tasks).actions = []
      ∧ cleanupDeletes
          (remoteAfter remote
            (runFullSyncLoop render1 hashFn storedHashes href remote tasks).updatedIds
            (runFullSyncLoop render1 hashFn storedHashes href remote tasks))
          (runFullSyncLoop render2 hashFn
            (runFullSyncLoop render1 hashFn storedHashes href remote
              tasks).updatedHashes
            href
            (remoteAfter remote
              (runFullSyncLoop render1 hashFn storedHashes href remote
                tasks).updatedIds
              (runFullSyncLoop render1 hashFn storedHashes href remote tasks))
            tasks).updatedIds = []
      ∧ remoteAfter
          (remoteAfter remote
            (runFullSyncLoop render1 hashFn storedHashes href remote tasks).updatedIds
            (runFullSyncLoop render1 hashFn storedHashes href remote tasks))
          (runFullSyncLoop render2 hashFn
            (runFullSyncLoop render1 hashFn storedHashes href remote
              tasks).updatedHashes
            href
            (remoteAfter remote
              (runFullSyncLoop render1 hashFn storedHashes href remote
                tasks).updatedIds
              (runFullSyncLoop render1 hashFn storedHashes href remote tasks))
            tasks).updatedIds
          (runFullSyncLoop render2 hashFn
            (runFullSyncLoop render1 hashFn storedHashes href remote
              tasks).updatedHashes
            href
            (remoteAfter remote
              (runFullSyncLoop render1 hashFn storedHashes href remote
                tasks).updatedIds
              (runFullSyncLoop render1 hashFn storedHashes href remote tasks))
            tasks)
        = remoteAfter remote
            (runFullSyncLoop render1 hashFn storedHashes href remote tasks).updatedIds
            (runFullSyncLoop render1 hashFn storedHashes href remote tasks) := by
  set r1 := runFullSyncLoop render1 hashFn storedHashes href remote tasks with hr1
  set remote1 := remoteAfter remote r1.updatedIds r1 with hremote1
  set r2 := runFullSyncLoop render2 hashFn r1.updatedHashes href remote1 tasks with hr2
  -- facts about the first run
  obtain ⟨newActs1, ha1, hsub1, hex1, hqm1⟩ :=
    loop_invariant render1 hashFn storedHashes href tasks
      { existing := remote, updatedIds := [], updatedHashes := [], skips := 0,
        actions := [] }
  have hacts1 : r1.actions = newActs1 := by simpa using ha1
  have hup1 : r1.updatedIds = qualifyingIds tasks := by
    simpa using loop_updatedIds render1 hashFn storedHashes href tasks
      { existing := remote, updatedIds := [], updatedHashes := [], skips := 0,
        actions := [] }
  -- every qualifying id is in the remote set the first run leaves behind
  have hq_remote1 : ∀ i ∈ qualifyingIds tasks, i ∈ remote1 := by
    intro i hi
    have hex : i ∈ r1.existing := hqm1 i hi
    rcases (hex1 i).mp hex with hr | hr
    · refine List.mem_append.mpr (Or.inl ?_)
      refine List.mem_filter.mpr ⟨hr, ?_⟩
      rw [hup1]
      simpa using hi
    · refine List.mem_append.mpr (Or.inr ?_)
      rw [hacts1]
      exact hr
  -- every element of that remote set is a qualifying id
  have hremote1_q : ∀ x ∈ remote1, x ∈ qualifyingIds tasks := by
    intro x hx
    rcases List.mem_append.mp hx with hx | hx
    · have := List.of_mem_filter hx
      rw [hup1] at this
      simpa using this
    · rw [hacts1] at hx
      exact hsub1 x hx
  -- the second run skips every qualifying task
  have hskip : r2.actions = [] := by
    rw [hr2]
    refine (loop_skip_all render2 hashFn r1.updatedHashes href tasks _ ?_).trans rfl
    intro t ht hq
    refine ⟨?_, hq_remote1 (taskId t) ?_⟩
    · rw [hsame t ht hq]
      exact loop_hash_lookup render1 hashFn storedHashes href tasks _ hnd t ht hq
    · exact List.mem_filterMap.mpr ⟨t, ht, by simp [qualifies] at hq ⊢; simp [hq]⟩
  have hup2 : r2.updatedIds = qualifyingIds tasks := by
    simpa using loop_updatedIds render2 hashFn r1.updatedHashes href tasks
      { existing := remote1, updatedIds := [], updatedHashes := [], skips := 0,
        actions := [] }
  refine ⟨hskip, ?_, ?_⟩
  · rw [show cleanupDeletes remote1 r2.updatedIds
        = remote1.filter (fun e => !r2.updatedIds.contains e) from rfl]
    rw [List.filter_eq_nil_iff]
    intro a ha
    rw [hup2]
    simpa using hremote1_q a ha
  · rw [show remoteAfter remote1 r2.updatedIds r2
        = remote1.filter (fun e => r2.updatedIds.contains e) ++ putIds r2.actions
        from rfl]
    rw [hskip]
    rw [show putIds [] = [] from rfl, List.append_nil]
    refine List.filter_eq_self.mpr ?_
    intro a ha
    rw [hup2]
    simpa using hremote1_q a ha

/-- C2 (amended): running full sync a second time over the same tasks
(qualifying ids distinct, as source-record ids are unique) with the
ledger and the remote event set produced by the first run issues zero
calendar actions — no writes (every qualifying task skips via hash
match), zero cleanup deletions, and an unchanged remote event set —
provided no qualifying task's rendered payload changes between the two
run times: the renderer `renderAt` (`_build_ics_for_task`) reads the
clock through the Overdue derivation, so a task whose effective due
time passes between the runs re-renders with a different status line,
its hash changes, and the second run rewrites it even though the task
source, settings and remote calendar are untouched (see
`C2_counterexample`). -/
theorem C2_idempotent (hashFn : String → String)
    (storedHashes : List (String × String)) (href color : String)
    (remote : List String) (tasks : List TaskInfo) (now1 now2 : Int)
    (hnd : (qualifyingIds tasks).Nodup)
    (hsame : ∀ t ∈ tasks, qualifies t = true →
      renderAt now2 color t = renderAt now1 color t) :
    (runFullSyncLoop (renderAt now2 color) hashFn
        (runFullSyncLoop (renderAt now1 color) hashFn storedHashes href remote
          tasks).updatedHashes
        href
        (remoteAfter remote
          (runFullSyncLoop (renderAt now1 color) hashFn storedHashes href remote
            tasks).updatedIds
          (runFullSyncLoop (renderAt now1 color) hashFn storedHashes href remote
            tasks))
        tasks).actions = []
      ∧ cleanupDeletes
          (remoteAfter remote
            (runFullSyncLoop (renderAt now1 color) hashFn storedHashes href remote
              tasks).updatedIds
            (runFullSyncLoop (renderAt now1 color) hashFn storedHashes href remote
              tasks))
          (runFullSyncLoop (renderAt now2 color) hashFn
            (runFullSyncLoop (renderAt now1 color) hashFn storedHashes href remote
              tasks).updatedHashes
            href
            (remoteAfter remote
              (runFullSyncLoop (renderAt now1 color) hashFn storedHashes href
                remote tasks).updatedIds
              (runFullSyncLoop (renderAt now1 color) hashFn storedHashes href
                remote tasks))
            tasks).updatedIds = []
      ∧ remoteAfter
          (remoteAfter remote
            (runFullSyncLoop (renderAt now1 color) hashFn storedHashes href remote
              tasks).updatedIds
            (runFullSyncLoop (renderAt now1 color) hashFn storedHashes href remote
              tasks))
          (runFullSyncLoop (renderAt now2 color) hashFn
            (runFullSyncLoop (renderAt now1 color) hashFn storedHashes href remote
              tasks).updatedHashes
            href
            (remoteAfter remote
              (runFullSyncLoop (renderAt now1 color) hashFn storedHashes href
                remote tasks).updatedIds
              (runFullSyncLoop (renderAt now1 color) hashFn storedHashes href
                remote tasks))
            tasks).updatedIds
          (runFullSyncLoop (renderAt now2 color) hashFn
            (runFullSyncLoop (renderAt now1 color) hashFn storedHashes href remote
              tasks).updatedHashes
            href
            (remoteAfter remote
              (runFullSyncLoop (renderAt now1 color) hashFn storedHashes href
                remote tasks).updatedIds
              (runFullSyncLoop (renderAt now1 color) hashFn storedHashes href
                remote tasks))
            tasks)
        = remoteAfter remote
            (runFullSyncLoop (renderAt now1 color) hashFn storedHashes href remote
              tasks).updatedIds
            (runFullSyncLoop (renderAt now1 color) hashFn storedHashes href remote
              tasks) :=
  second_run_all_skip (renderAt now1 color) (renderAt now2 color) hashFn
    storedHashes href remote tasks hnd hsame

set_option maxRecDepth 40000 in
/-- Counterexample for C2 as stated: an all-day task due 2024-01-02
(status `Todo`) whose due time 23:59:59 passes between a first run at
2024-01-02T00:00:00Z (epoch 1704153600) and a second at
2024-01-03T00:00:00Z (epoch 1704240000).  Nothing upstream changes,
yet the derived status flips to `Overdue`, the rendered payload (and
hence its hash) differs, and the second run performs a calendar write
for the task — the claim's unconditional zero-write promise fails. -/
theorem C2_counterexample :
    status_for_task
        { notion_id := some "t1", status := some "Todo",
          start_date := some "2024-01-02" } 1704153600 = "Todo"
      ∧ status_for_task
          { notion_id := some "t1", status := some "Todo",
            start_date := some "2024-01-02" } 1704240000 = "Overdue"
      ∧ build_ics_for_task 1704153600
          { notion_id := some "t1", status := some "Todo",
            start_date := some "2024-01-02" } "#fff"
        ≠ build_ics_for_task 1704240000
            { notion_id := some "t1", status := some "Todo",
              start_date := some "2024-01-02" } "#fff"
      ∧ putIds (runFullSyncLoop (renderAt 1704240000 "#fff") id
            (runFullSyncLoop (renderAt 1704153600 "#fff") id [] "https://cal" []
              [{ notion_id := some "t1", status := some "Todo",
                 start_date := some "2024-01-02" }]).updatedHashes
            "https://cal"
            (remoteAfter []
              (runFullSyncLoop (renderAt 1704153600 "#fff") id [] "https://cal" []
                [{ notion_id := some "t1", status := some "Todo",
                   start_date := some "2024-01-02" }]).updatedIds
              (runFullSyncLoop (renderAt 1704153600 "#fff") id [] "https://cal" []
                [{ notion_id := some "t1", status := some "Todo",
                   start_date := some "2024-01-02" }]))
            [{ notion_id := some "t1", status := some "Todo",
               start_date := some "2024-01-02" }]).actions
          = ["t1"] := by
  refine ⟨by decide, by decide, by decide, by decide⟩

set_option maxRecDepth 40000 in
/-- Witness for C2 at the real renderer and two different run times
between which no status flips (the task is due far in the future): one
fresh task, empty ledger, empty remote set — the second run issues no
action and the remote set stays `[t1]`. -/
theorem C2_witness :
    (qualifyingIds [{ notion_id := some "t1", status := some "Todo",
                      start_date := some "2099-01-01" }]).Nodup
      ∧ (∀ t ∈ [({ notion_id := some "t1", status := some "Todo",
                   start_date := some "2099-01-01" } : TaskInfo)], qualifies t = true →
          renderAt 1704240000 "#fff" t = renderAt 1704153600 "#fff" t)
      ∧ (runFullSyncLoop (renderAt 1704240000 "#fff") id
          (runFullSyncLoop (renderAt 1704153600 "#fff") id [] "https://cal" []
            [{ notion_id := some "t1", status := some "Todo",
               start_date := some "2099-01-01" }]).updatedHashes
          "https://cal"
          (remoteAfter []
            (runFullSyncLoop (renderAt 1704153600 "#fff") id [] "https://cal" []
              [{ notion_id := some "t1", status := some "Todo",
                 start_date := some "2099-01-01" }]).updatedIds
            (runFullSyncLoop (renderAt 1704153600 "#fff") id [] "https://cal" []
              [{ notion_id := some "t1", status := some "Todo",
                 start_date := some "2099-01-01" }]))
          [{ notion_id := some "t1", status := some "Todo",
             start_date := some "2099-01-01" }]).actions
        = []
      ∧ remoteAfter []
          (runFullSyncLoop (renderAt 1704153600 "#fff") id [] "https://cal" []
            [{ notion_id := some "t1", status := some "Todo",
               start_date := some "2099-01-01" }]).updatedIds
          (runFullSyncLoop (renderAt 1704153600 "#fff") id [] "https://cal" []
            [{ notion_id := some "t1", status := some "Todo",
               start_date := some "2099-01-01" }])
        = ["t1"] := by
  have h := C2_idempotent id [] "https://cal" "#fff" []
    [{ notion_id := some "t1", status := some "Todo",
       start_date := some "2099-01-01" }] 1704153600 1704240000
    (by decide) (by decide)
  exact ⟨by decide, by decide, h.1, by decide⟩

end NotionCaldav
